import Mathlib

/-!
Verification development for the OpenPGP public-key packet core
(`openpgp/packet/public_key.go`) and the SHA-1 digest implementation
shipped with it.  Go byte slices are embedded as `List Nat` with entries
below 256, machine integers as `Nat` with explicit reduction modulo
`2^32` / `2^64` where the Go code works in `uint32` / `uint64`, fallible
operations as `Except`, and hash/stream writers as explicit byte-list
accumulation.  Functions whose Go source is part of this repository are
translated directly from it; collaborators that the repository consumes
from external libraries (the MPI/OID codec, the curve registry, the
SHA-256/512 compression functions, the asymmetric verification
primitives) are modelled from the specification, each marked by a
doc comment starting with `Modelled from the spec:`.
-/

deriving instance DecidableEq for Except

namespace PGP

/-- Byte strings (Go `[]byte`): lists of naturals, each below 256. -/
abbrev Bytes := List Nat

/-- Reduction modulo `2^32` (Go `uint32` arithmetic). -/
def u32 (x : Nat) : Nat := x % 4294967296

/-- Reduction modulo `2^64` (Go `uint64` arithmetic). -/
def u64 (x : Nat) : Nat := x % 18446744073709551616

/-- Truncation to one byte (Go `byte(x)`). -/
def byteOf (x : Nat) : Nat := x % 256

/-- Big-endian 2-byte encoding, each byte truncated as Go does. -/
def be16 (x : Nat) : Bytes := [byteOf (x >>> 8), byteOf x]

/-- Big-endian 4-byte encoding (Go `byte(x>>24), byte(x>>16), byte(x>>8), byte(x)`). -/
def be32 (x : Nat) : Bytes := [byteOf (x >>> 24), byteOf (x >>> 16), byteOf (x >>> 8), byteOf x]

/-- Big-endian 8-byte encoding (Go `binary.BigEndian.PutUint64`). -/
def be64 (x : Nat) : Bytes :=
  [byteOf (x >>> 56), byteOf (x >>> 48), byteOf (x >>> 40), byteOf (x >>> 32),
   byteOf (x >>> 24), byteOf (x >>> 16), byteOf (x >>> 8), byteOf x]

/-- Big-endian interpretation of a byte string (Go `binary.BigEndian.Uint64`,
`big.Int.SetBytes`). -/
def beToNat (l : Bytes) : Nat := l.foldl (fun a b => a * 256 + b) 0

/-- Structural helper for `natBytesBE` (the fuel bounds the recursion
depth; `fuel ≥ n` always suffices). -/
def natBytesBEAux : Nat → Nat → Bytes
  | 0, _ => []
  | fuel + 1, n => if n = 0 then [] else natBytesBEAux fuel (n / 256) ++ [n % 256]

/-- Minimal big-endian byte representation of a natural (Go `big.Int.Bytes`):
empty for zero, no leading zero byte otherwise. -/
def natBytesBE (n : Nat) : Bytes := natBytesBEAux n n

/-- Structural helper for `natBitLen`. -/
def natBitLenAux : Nat → Nat → Nat
  | 0, _ => 0
  | fuel + 1, n => if n = 0 then 0 else natBitLenAux fuel (n / 2) + 1

/-- Number of significant bits of a natural (Go `big.Int.BitLen`). -/
def natBitLen (n : Nat) : Nat := natBitLenAux n n

/-- 32-bit rotate left. -/
def rotl32 (x n : Nat) : Nat := u32 ((x <<< n) ||| (x >>> (32 - n)))

/-- 32-bit rotate right. -/
def rotr32 (x n : Nat) : Nat := u32 ((x >>> n) ||| (x <<< (32 - n)))

/-- 64-bit rotate right. -/
def rotr64 (x n : Nat) : Nat := u64 ((x >>> n) ||| (x <<< (64 - n)))

/-- Structural helper for `chunksOf` (fuel bounds the number of chunks;
`fuel ≥ l.length` always suffices for a positive chunk size). -/
def chunksOfAux (n : Nat) : Nat → List Nat → List (List Nat)
  | 0, _ => []
  | fuel + 1, l => if l.isEmpty then [] else (l.take n) :: chunksOfAux n fuel (l.drop n)

/-- Split a byte string into consecutive chunks of `n` bytes. -/
def chunksOf (n : Nat) (l : List Nat) : List (List Nat) :=
  if n = 0 then [] else chunksOfAux n l.length l

/-! ## SHA-1 (translated from the repository's `sha1` package)

The `digest` struct carries the five 32-bit state words `h`, the chunk
buffer `x` (embedded as the list of its first `nx` valid bytes, so
`d.nx` is `d.x.length`) and the running byte count `len` (a `uint64`). -/

structure Sha1Digest where
  h0 : Nat
  h1 : Nat
  h2 : Nat
  h3 : Nat
  h4 : Nat
  x : Bytes
  len : Nat
deriving Repr, DecidableEq

/-- `Reset` / the freshly initialised digest. -/
def sha1Init : Sha1Digest :=
  { h0 := 0x67452301, h1 := 0xEFCDAB89, h2 := 0x98BADCFE, h3 := 0x10325476,
    h4 := 0xC3D2E1F0, x := [], len := 0 }

/-- Modelled from the spec: the SHA-1 message schedule of the generic
hash-primitive block function (external to this repository's sources),
per RFC 3174: sixteen big-endian words from the chunk, extended to
eighty by the rotate-by-one recurrence. -/
def sha1Schedule (chunk : Bytes) : Array Nat :=
  let w16 : Array Nat :=
    ((List.range 16).map (fun i => beToNat ((chunk.drop (4 * i)).take 4))).toArray
  (List.range 64).foldl
    (fun w _ =>
      w.push (rotl32 ((w.getD (w.size - 3) 0) ^^^ (w.getD (w.size - 8) 0) ^^^
        (w.getD (w.size - 14) 0) ^^^ (w.getD (w.size - 16) 0)) 1))
    w16

/-- Modelled from the spec: one application of the SHA-1 compression
function (external to this repository's sources), RFC 3174 section 6.1.
Only the state words change; the buffer and length are untouched. -/
def sha1BlockOne (d : Sha1Digest) (chunk : Bytes) : Sha1Digest :=
  let w := sha1Schedule chunk
  let st := (List.range 80).foldl
    (fun (st : Nat × Nat × Nat × Nat × Nat) i =>
      let (a, b, c, dd, e) := st
      let f :=
        if i < 20 then (b &&& c) ||| ((b ^^^ 0xFFFFFFFF) &&& dd)
        else if i < 40 then b ^^^ c ^^^ dd
        else if i < 60 then (b &&& c) ||| (b &&& dd) ||| (c &&& dd)
        else b ^^^ c ^^^ dd
      let k :=
        if i < 20 then 0x5A827999
        else if i < 40 then 0x6ED9EBA1
        else if i < 60 then 0x8F1BBCDC
        else 0xCA62C1D6
      (u32 (rotl32 a 5 + f + e + k + w.getD i 0), a, rotl32 b 30, c, dd))
    (d.h0, d.h1, d.h2, d.h3, d.h4)
  { d with
    h0 := u32 (d.h0 + st.1), h1 := u32 (d.h1 + st.2.1), h2 := u32 (d.h2 + st.2.2.1),
    h3 := u32 (d.h3 + st.2.2.2.1), h4 := u32 (d.h4 + st.2.2.2.2) }

/-- `block(d, p)` over a whole-multiple-of-64 byte string: compress each
64-byte chunk in order. -/
def sha1Blocks (d : Sha1Digest) (chunks : List Bytes) : Sha1Digest :=
  chunks.foldl sha1BlockOne d

/-- First stage of `digest.Write`: if bytes are buffered, top the buffer
up from `p`, compressing it if it reaches 64 bytes (source lines
144-155). -/
def sha1WriteStep1 (d : Sha1Digest) (p : Bytes) : Sha1Digest × Bytes :=
  if 0 < d.x.length then
    let n := min (64 - d.x.length) p.length
    let x1 := d.x ++ p.take n
    if x1.length = 64 then ({ sha1Blocks d [x1] with x := [] }, p.drop n)
    else ({ d with x := x1 }, p.drop n)
  else (d, p)

/-- Second stage of `digest.Write`: compress the largest whole-chunk
slice `p[:len(p) &^ 63]` directly (source lines 157-163). -/
def sha1WriteStep2 (dp : Sha1Digest × Bytes) : Sha1Digest × Bytes :=
  if 64 ≤ dp.2.length then
    let n := dp.2.length - dp.2.length % 64
    (sha1Blocks dp.1 (chunksOf 64 (dp.2.take n)), dp.2.drop n)
  else dp

/-- Third stage of `digest.Write`: buffer any remaining tail (source
lines 165-169). -/
def sha1WriteStep3 (dp : Sha1Digest × Bytes) : Sha1Digest :=
  if 0 < dp.2.length then { dp.1 with x := dp.2 } else dp.1

/-- `digest.Write`: add `len(p)` to the running count, then the three
buffering stages.  (The source also prints every written byte string to
standard error; that emission is modelled by `sha1WriteEmits` below.) -/
def sha1Write (d : Sha1Digest) (p : Bytes) : Sha1Digest :=
  sha1WriteStep3 (sha1WriteStep2 (sha1WriteStep1 { d with len := u64 (d.len + p.length) } p))

/-- Length of the padding slice written by `checkSum` (source lines
186-190): one marker byte plus zeros up to 56 mod 64. -/
def sha1PadLen (len : Nat) : Nat :=
  if len % 64 < 56 then 56 - len % 64 else 64 + 56 - len % 64

/-- The digest state after `checkSum` has written the `0x80` padding,
the zero fill and the 8-byte bit length (source lines 182-195). -/
def sha1CheckSumState (d : Sha1Digest) : Sha1Digest :=
  let len := d.len
  let d1 := sha1Write d (0x80 :: List.replicate (sha1PadLen len - 1) 0)
  sha1Write d1 (be64 (u64 (len <<< 3)))

/-- `digest.checkSum`: pad, write the bit length, and emit the five
state words big-endian.  The fatal `panic("d.nx != 0")` guard (source
lines 197-199) is embedded as the `none` branch. -/
def sha1CheckSum (d : Sha1Digest) : Option Bytes :=
  let d2 := sha1CheckSumState d
  if d2.x.length ≠ 0 then none
  else some (be32 d2.h0 ++ be32 d2.h1 ++ be32 d2.h2 ++ be32 d2.h3 ++ be32 d2.h4)

/-- Package-level `Sum`: digest of `data` from a fresh state.  The panic
branch never fires on this path (proved below), so the default is
unreachable. -/
def sha1Sum (data : Bytes) : Bytes :=
  (sha1CheckSum (sha1Write sha1Init data)).getD []

/-- The byte strings `digest.Write` dumps to standard error
(`fmt.Fprintf(os.Stderr, "bytes to digest: %x\n", p)`, source line 140):
every chunk of input fed to the hash. -/
def sha1WriteEmits (p : Bytes) : List Bytes := [p]

/-! ## SHA-256 and SHA-512

Modelled from the spec: the generic SHA-256/512 hash primitives consumed
by the fingerprint deriver and signature verifier are external to this
repository's sources ("SHA-256-family digest", "SHA-512"); they are
modelled here as the FIPS 180-4 functions. -/

/-- Modelled from the spec: the SHA-256 round constants (FIPS 180-4). -/
def sha256K : List Nat :=
  [0x428A2F98, 0x71374491, 0xB5C0FBCF, 0xE9B5DBA5, 0x3956C25B, 0x59F111F1, 0x923F82A4,
   0xAB1C5ED5, 0xD807AA98, 0x12835B01, 0x243185BE, 0x550C7DC3, 0x72BE5D74, 0x80DEB1FE,
   0x9BDC06A7, 0xC19BF174, 0xE49B69C1, 0xEFBE4786, 0xfc19dc6, 0x240CA1CC, 0x2DE92C6F,
   0x4A7484AA, 0x5CB0A9DC, 0x76F988DA, 0x983E5152, 0xA831C66D, 0xB00327C8, 0xBF597FC7,
   0xC6E00BF3, 0xD5A79147, 0x6ca6351, 0x14292967, 0x27B70A85, 0x2E1B2138, 0x4D2C6DFC,
   0x53380D13, 0x650A7354, 0x766A0ABB, 0x81C2C92E, 0x92722C85, 0xA2BFE8A1, 0xA81A664B,
   0xC24B8B70, 0xC76C51A3, 0xD192E819, 0xD6990624, 0xF40E3585, 0x106AA070, 0x19A4C116,
   0x1E376C08, 0x2748774C, 0x34B0BCB5, 0x391C0CB3, 0x4ED8AA4A, 0x5B9CCA4F, 0x682E6FF3,
   0x748F82EE, 0x78A5636F, 0x84C87814, 0x8CC70208, 0x90BEFFFA, 0xA4506CEB, 0xBEF9A3F7,
   0xC67178F2]

/-- Modelled from the spec: SHA-256 message schedule extension. -/
def sha256Schedule (chunk : Bytes) : Array Nat :=
  let w16 : Array Nat :=
    ((List.range 16).map (fun i => beToNat ((chunk.drop (4 * i)).take 4))).toArray
  (List.range 48).foldl
    (fun w _ =>
      let w15 := w.getD (w.size - 15) 0
      let w2 := w.getD (w.size - 2) 0
      let s0 := (rotr32 w15 7) ^^^ (rotr32 w15 18) ^^^ (w15 >>> 3)
      let s1 := (rotr32 w2 17) ^^^ (rotr32 w2 19) ^^^ (w2 >>> 10)
      w.push (u32 ((w.getD (w.size - 16) 0) + s0 + (w.getD (w.size - 7) 0) + s1)))
    w16

/-- Modelled from the spec: one SHA-256 compression step over a 64-byte
chunk, acting on the eight 32-bit state words. -/
def sha256BlockOne (h : List Nat) (chunk : Bytes) : List Nat :=
  let w := sha256Schedule chunk
  let st := (List.range 64).foldl
    (fun (st : Nat × Nat × Nat × Nat × Nat × Nat × Nat × Nat) i =>
      let (a, b, c, d, e, f, g, hh) := st
      let s1 := (rotr32 e 6) ^^^ (rotr32 e 11) ^^^ (rotr32 e 25)
      let ch := (e &&& f) ^^^ ((e ^^^ 0xFFFFFFFF) &&& g)
      let t1 := u32 (hh + s1 + ch + (sha256K.getD i 0) + w.getD i 0)
      let s0 := (rotr32 a 2) ^^^ (rotr32 a 13) ^^^ (rotr32 a 22)
      let maj := (a &&& b) ^^^ (a &&& c) ^^^ (b &&& c)
      let t2 := u32 (s0 + maj)
      (u32 (t1 + t2), a, b, c, u32 (d + t1), e, f, g))
    (h.getD 0 0, h.getD 1 0, h.getD 2 0, h.getD 3 0, h.getD 4 0, h.getD 5 0,
     h.getD 6 0, h.getD 7 0)
  [u32 (h.getD 0 0 + st.1), u32 (h.getD 1 0 + st.2.1), u32 (h.getD 2 0 + st.2.2.1),
   u32 (h.getD 3 0 + st.2.2.2.1), u32 (h.getD 4 0 + st.2.2.2.2.1),
   u32 (h.getD 5 0 + st.2.2.2.2.2.1), u32 (h.getD 6 0 + st.2.2.2.2.2.2.1),
   u32 (h.getD 7 0 + st.2.2.2.2.2.2.2)]

/-- Modelled from the spec: FIPS 180-4 padding for 64-byte-block hashes:
a `0x80` marker, zeros to 56 mod 64, then the 8-byte big-endian bit
length. -/
def sha256Pad (msg : Bytes) : Bytes :=
  msg ++ 0x80 :: List.replicate ((64 + 55 - msg.length % 64) % 64) 0 ++
    be64 (u64 (msg.length * 8))

/-- Modelled from the spec: the SHA-256 digest, 32 bytes. -/
def sha256Sum (msg : Bytes) : Bytes :=
  let hInit : List Nat := [0x6A09E667, 0xBB67AE85, 0x3C6EF372, 0xA54FF53A, 0x510E527F,
    0x9B05688C, 0x1F83D9AB, 0x5BE0CD19]
  let hFin := (chunksOf 64 (sha256Pad msg)).foldl sha256BlockOne hInit
  hFin.foldr (fun h acc => be32 h ++ acc) []

/-- Modelled from the spec: the SHA-512 round constants (FIPS 180-4). -/
def sha512K : List Nat :=
  [0x428A2F98D728AE22, 0x7137449123EF65CD, 0xB5C0FBCFEC4D3B2F, 0xE9B5DBA58189DBBC,
   0x3956C25BF348B538, 0x59F111F1B605D019, 0x923F82A4AF194F9B, 0xAB1C5ED5DA6D8118,
   0xD807AA98A3030242, 0x12835B0145706FBE, 0x243185BE4EE4B28C, 0x550C7DC3D5FFB4E2,
   0x72BE5D74F27B896F, 0x80DEB1FE3B1696B1, 0x9BDC06A725C71235, 0xC19BF174CF692694,
   0xE49B69C19EF14AD2, 0xEFBE4786384F25E3, 0xFC19DC68B8CD5B5, 0x240CA1CC77AC9C65,
   0x2DE92C6F592B0275, 0x4A7484AA6EA6E483, 0x5CB0A9DCBD41FBD4, 0x76F988DA831153B5,
   0x983E5152EE66DFAB, 0xA831C66D2DB43210, 0xB00327C898FB213F, 0xBF597FC7BEEF0EE4,
   0xC6E00BF33DA88FC2, 0xD5A79147930AA725, 0x6CA6351E003826F, 0x142929670A0E6E70,
   0x27B70A8546D22FFC, 0x2E1B21385C26C926, 0x4D2C6DFC5AC42AED, 0x53380D139D95B3DF,
   0x650A73548BAF63DE, 0x766A0ABB3C77B2A8, 0x81C2C92E47EDAEE6, 0x92722C851482353B,
   0xA2BFE8A14CF10364, 0xA81A664BBC423001, 0xC24B8B70D0F89791, 0xC76C51A30654BE30,
   0xD192E819D6EF5218, 0xD69906245565A910, 0xF40E35855771202A, 0x106AA07032BBD1B8,
   0x19A4C116B8D2D0C8, 0x1E376C085141AB53, 0x2748774CDF8EEB99, 0x34B0BCB5E19B48A8,
   0x391C0CB3C5C95A63, 0x4ED8AA4AE3418ACB, 0x5B9CCA4F7763E373, 0x682E6FF3D6B2B8A3,
   0x748F82EE5DEFB2FC, 0x78A5636F43172F60, 0x84C87814A1F0AB72, 0x8CC702081A6439EC,
   0x90BEFFFA23631E28, 0xA4506CEBDE82BDE9, 0xBEF9A3F7B2C67915, 0xC67178F2E372532B,
   0xCA273ECEEA26619C, 0xD186B8C721C0C207, 0xEADA7DD6CDE0EB1E, 0xF57D4F7FEE6ED178,
   0x6F067AA72176FBA, 0xA637DC5A2C898A6, 0x113F9804BEF90DAE, 0x1B710B35131C471B,
   0x28DB77F523047D84, 0x32CAAB7B40C72493, 0x3C9EBE0A15C9BEBC, 0x431D67C49C100D4C,
   0x4CC5D4BECB3E42B6, 0x597F299CFC657E2A, 0x5FCB6FAB3AD6FAEC, 0x6C44198C4A475817]

/-- Modelled from the spec: SHA-512 message schedule extension. -/
def sha512Schedule (chunk : Bytes) : Array Nat :=
  let w16 : Array Nat :=
    ((List.range 16).map (fun i => beToNat ((chunk.drop (8 * i)).take 8))).toArray
  (List.range 64).foldl
    (fun w _ =>
      let w15 := w.getD (w.size - 15) 0
      let w2 := w.getD (w.size - 2) 0
      let s0 := (rotr64 w15 1) ^^^ (rotr64 w15 8) ^^^ (w15 >>> 7)
      let s1 := (rotr64 w2 19) ^^^ (rotr64 w2 61) ^^^ (w2 >>> 6)
      w.push (u64 ((w.getD (w.size - 16) 0) + s0 + (w.getD (w.size - 7) 0) + s1)))
    w16

/-- Modelled from the spec: one SHA-512 compression step over a
128-byte chunk, acting on the eight 64-bit state words. -/
def sha512BlockOne (h : List Nat) (chunk : Bytes) : List Nat :=
  let w := sha512Schedule chunk
  let st := (List.range 80).foldl
    (fun (st : Nat × Nat × Nat × Nat × Nat × Nat × Nat × Nat) i =>
      let (a, b, c, d, e, f, g, hh) := st
      let s1 := (rotr64 e 14) ^^^ (rotr64 e 18) ^^^ (rotr64 e 41)
      let ch := (e &&& f) ^^^ ((e ^^^ 0xFFFFFFFFFFFFFFFF) &&& g)
      let t1 := u64 (hh + s1 + ch + (sha512K.getD i 0) + w.getD i 0)
      let s0 := (rotr64 a 28) ^^^ (rotr64 a 34) ^^^ (rotr64 a 39)
      let maj := (a &&& b) ^^^ (a &&& c) ^^^ (b &&& c)
      let t2 := u64 (s0 + maj)
      (u64 (t1 + t2), a, b, c, u64 (d + t1), e, f, g))
    (h.getD 0 0, h.getD 1 0, h.getD 2 0, h.getD 3 0, h.getD 4 0, h.getD 5 0,
     h.getD 6 0, h.getD 7 0)
  [u64 (h.getD 0 0 + st.1), u64 (h.getD 1 0 + st.2.1), u64 (h.getD 2 0 + st.2.2.1),
   u64 (h.getD 3 0 + st.2.2.2.1), u64 (h.getD 4 0 + st.2.2.2.2.1),
   u64 (h.getD 5 0 + st.2.2.2.2.2.1), u64 (h.getD 6 0 + st.2.2.2.2.2.2.1),
   u64 (h.getD 7 0 + st.2.2.2.2.2.2.2)]

/-- Modelled from the spec: FIPS 180-4 padding for 128-byte-block
hashes: marker, zeros to 112 mod 128, 16-byte big-endian bit length. -/
def sha512Pad (msg : Bytes) : Bytes :=
  msg ++ 0x80 :: List.replicate ((128 + 111 - msg.length % 128) % 128) 0 ++
    be64 ((msg.length * 8) / 18446744073709551616) ++ be64 (u64 (msg.length * 8))

/-- Modelled from the spec: the SHA-512 digest, 64 bytes. -/
def sha512Sum (msg : Bytes) : Bytes :=
  let hInit : List Nat := [0x6A09E667F3BCC908, 0xBB67AE8584CAA73B, 0x3C6EF372FE94F82B,
    0xA54FF53A5F1D36F1, 0x510E527FADE682D1, 0x9B05688C2B3E6C1F, 0x1F83D9ABFB41BD6B,
    0x5BE0CD19137E2179]
  let hFin := (chunksOf 128 (sha512Pad msg)).foldl sha512BlockOne hInit
  hFin.foldr (fun h acc => be64 h ++ acc) []

/-! ## Error taxonomy

The outcome types of the packet core: `errors.UnsupportedError`,
`errors.InvalidArgumentError`, `errors.SignatureError` and
`errors.StructuralError` from the consumed errors package, plus a
short-read outcome (`io.ErrUnexpectedEOF` via `readFull`) and a
distinguished outcome embedding a Go runtime panic (out-of-range
indexing), which is not an error value in the source at all. -/

inductive PgpError where
  | unsupported (msg : String)
  | invalidArgument (msg : String)
  | signatureError (msg : String)
  | structural (msg : String)
  | readFailure
  | outOfBounds
deriving Repr, DecidableEq

/-! ## MPI / OID codec

Modelled from the spec: the variable-length field codec is an external
collaborator ("MPI: 2-byte bit-length prefix + big-endian bytes, no
leading zero byte" and "OID: 1-byte length prefix + raw bytes";
"read-from-stream (returns consumed byte count or a decoding failure),
encoded-byte-length, raw encoded bytes"). -/

structure MPI where
  bitLength : Nat
  bytes : Bytes
deriving Repr, DecidableEq

/-- Modelled from the spec: MPI wire form, the 2-byte big-endian
bit-length prefix followed by the value bytes. -/
def MPI.encodedBytes (m : MPI) : Bytes :=
  byteOf (m.bitLength >>> 8) :: byteOf m.bitLength :: m.bytes

/-- Modelled from the spec: `EncodedLength` of an MPI. -/
def MPI.encodedLength (m : MPI) : Nat := 2 + m.bytes.length

/-- Modelled from the spec: MPI read-from-stream; reads the bit-length
prefix, then `(bitLength+7)/8` value bytes; short reads fail. -/
def MPI.readFrom (s : Bytes) : Except PgpError (MPI × Bytes) :=
  match s with
  | b0 :: b1 :: rest =>
    let bl := b0 * 256 + b1
    let k := (bl + 7) / 8
    if k ≤ rest.length then .ok (⟨bl, rest.take k⟩, rest.drop k)
    else .error .readFailure
  | _ => .error .readFailure

/-- Drop leading zero bytes. -/
def stripLeadingZeros : Bytes → Bytes
  | [] => []
  | 0 :: rest => stripLeadingZeros rest
  | b :: rest => b :: rest

/-- Modelled from the spec: the canonical MPI of a byte string — strip
leading zero bytes and compute the bit length from the first remaining
byte. -/
def NewMPI (bytes : Bytes) : MPI :=
  match stripLeadingZeros bytes with
  | [] => ⟨0, []⟩
  | hd :: tl => ⟨8 * tl.length + natBitLen hd, hd :: tl⟩

/-- Modelled from the spec: `MPI.SetBig` — the canonical MPI of a
natural number. -/
def MPI.setBig (n : Nat) : MPI := NewMPI (natBytesBE n)

structure OID where
  bytes : Bytes
deriving Repr, DecidableEq

/-- Modelled from the spec: OID wire form, 1-byte length then the raw
bytes. -/
def OID.encodedBytes (o : OID) : Bytes := byteOf o.bytes.length :: o.bytes

/-- Modelled from the spec: `EncodedLength` of an OID. -/
def OID.encodedLength (o : OID) : Nat := 1 + o.bytes.length

/-- Modelled from the spec: OID read-from-stream. -/
def OID.readFrom (s : Bytes) : Except PgpError (OID × Bytes) :=
  match s with
  | l :: rest =>
    if l ≤ rest.length then .ok (⟨rest.take l⟩, rest.drop l)
    else .error .readFailure
  | [] => .error .readFailure

/-! ## Curve / algorithm registry

Modelled from the spec: the algorithm registry is an external
collaborator ("lookup of curve parameters by OID or by curve handle ...
returning curve math handle + signature-algorithm-family tag + canonical
OID bytes; hash/cipher identifier lookup by numeric id for ECDH KDF
parameters"). -/

inductive SigAlgoFamily where
  | forECDSA
  | forEdDSA
  | encryptOnly
deriving Repr, DecidableEq

structure CurveInfo where
  name : String
  oidBytes : Bytes
  sigAlgorithm : SigAlgoFamily
  isCurve25519 : Bool
  fieldByteLen : Nat
deriving Repr, DecidableEq

/-- Modelled from the spec: the registered curves. -/
def curveRegistry : List CurveInfo :=
  [⟨"P256", [0x2A, 0x86, 0x48, 0xCE, 0x3D, 0x03, 0x01, 0x07], .forECDSA, false, 32⟩,
   ⟨"P384", [0x2B, 0x81, 0x04, 0x00, 0x22], .forECDSA, false, 48⟩,
   ⟨"P521", [0x2B, 0x81, 0x04, 0x00, 0x23], .forECDSA, false, 66⟩,
   ⟨"SecP256k1", [0x2B, 0x81, 0x04, 0x00, 0x0A], .forECDSA, false, 32⟩,
   ⟨"Curve25519", [0x2B, 0x06, 0x01, 0x04, 0x01, 0x97, 0x55, 0x01, 0x05, 0x01],
     .encryptOnly, true, 32⟩,
   ⟨"Ed25519", [0x2B, 0x06, 0x01, 0x04, 0x01, 0xDA, 0x47, 0x0F, 0x01], .forEdDSA, false, 32⟩]

/-- Modelled from the spec: curve lookup by OID bytes (`ecc.FindByOid`). -/
def findByOid (o : OID) : Option CurveInfo :=
  curveRegistry.find? (fun ci => ci.oidBytes == o.bytes)

/-- Modelled from the spec: curve lookup by name (`ecc.FindByName`). -/
def findByName (n : String) : Option CurveInfo :=
  curveRegistry.find? (fun ci => ci.name == n)

/-- Modelled from the spec: the hash-algorithm ids known to the ECDH KDF
registry (`algorithm.HashById`). -/
def hashIdKnown (id : Nat) : Bool :=
  id == 1 || id == 2 || id == 3 || id == 8 || id == 9 || id == 10 || id == 11

/-- Modelled from the spec: the symmetric-cipher ids known to the ECDH
KDF registry (`algorithm.CipherById`). -/
def cipherIdKnown (id : Nat) : Bool :=
  id == 3 || id == 7 || id == 8 || id == 9

/-- Left-pad a value's minimal bytes with zeros to a fixed width. -/
def padBE (k n : Nat) : Bytes :=
  List.replicate (k - (natBytesBE n).length) 0 ++ natBytesBE n

/-- Modelled from the spec: uncompressed elliptic-curve point encoding
(`elliptic.Marshal`): marker `0x04` then the two fixed-width
coordinates. -/
def ellipticMarshal (c : CurveInfo) (x y : Nat) : Bytes :=
  4 :: (padBE c.fieldByteLen x ++ padBE c.fieldByteLen y)

/-- Modelled from the spec: uncompressed elliptic-curve point decoding
(`elliptic.Unmarshal`): the point must be `0x04` followed by the two
fixed-width coordinates (the on-curve validity test belongs to the
external curve-math primitive). -/
def ellipticUnmarshal (c : CurveInfo) (b : Bytes) : Option (Nat × Nat) :=
  if b.length = 1 + 2 * c.fieldByteLen ∧ b.headD 0 = 4 then
    some (beToNat ((b.drop 1).take c.fieldByteLen), beToNat (b.drop (1 + c.fieldByteLen)))
  else none

/-! ## Public key data model (`PublicKey` struct) -/

inductive PublicKeyAlgorithm where
  | rsa
  | rsaEncryptOnly
  | rsaSignOnly
  | elgamal
  | dsa
  | ecdh
  | ecdsa
  | eddsa
deriving Repr, DecidableEq

/-- The RFC 4880 numeric tag of each algorithm. -/
def PublicKeyAlgorithm.id : PublicKeyAlgorithm → Nat
  | .rsa => 1
  | .rsaEncryptOnly => 2
  | .rsaSignOnly => 3
  | .elgamal => 16
  | .dsa => 17
  | .ecdh => 18
  | .ecdsa => 19
  | .eddsa => 22

/-- Tag byte to algorithm; `none` is the `default:` unsupported branch
of `parse`. -/
def PublicKeyAlgorithm.ofByte : Nat → Option PublicKeyAlgorithm
  | 1 => some .rsa
  | 2 => some .rsaEncryptOnly
  | 3 => some .rsaSignOnly
  | 16 => some .elgamal
  | 17 => some .dsa
  | 18 => some .ecdh
  | 19 => some .ecdsa
  | 22 => some .eddsa
  | _ => none

/-- The native key held in the `PublicKey` interface field
(`*rsa.PublicKey`, `*dsa.PublicKey`, ...), embedded as a sum. -/
inductive ParsedKey where
  | unset
  | rsaKey (n e : Nat)
  | dsaKey (p q g y : Nat)
  | elgamalKey (p g y : Nat)
  | ecdsaKey (curve : String) (x y : Nat)
  | ecdhKey (curve : String) (x y : Nat) (kdfHash kdfCipher : Nat)
  | eddsaKey (bytes : Bytes)
deriving Repr, DecidableEq

/-- The `PublicKey` struct.  `creationTime` is the Unix-second value of
the Go `time.Time` (second resolution). -/
structure PublicKey where
  version : Nat
  creationTime : Nat
  pubKeyAlgo : PublicKeyAlgorithm
  publicKey : ParsedKey := .unset
  fingerprint : Bytes := []
  keyId : Nat := 0
  isSubkey : Bool := false
  n : MPI := ⟨0, []⟩
  e : MPI := ⟨0, []⟩
  p : MPI := ⟨0, []⟩
  q : MPI := ⟨0, []⟩
  g : MPI := ⟨0, []⟩
  y : MPI := ⟨0, []⟩
  oid : OID := ⟨[]⟩
  kdf : OID := ⟨[]⟩
deriving Repr, DecidableEq

/-- `algorithmSpecificByteCount`: the encoded length of the
algorithm-specific fields.  The Go `default: panic` branch cannot arise
here because the algorithm enumeration is closed. -/
def algorithmSpecificByteCount (pk : PublicKey) : Nat :=
  match pk.pubKeyAlgo with
  | .rsa | .rsaEncryptOnly | .rsaSignOnly => pk.n.encodedLength + pk.e.encodedLength
  | .dsa => pk.p.encodedLength + pk.q.encodedLength + pk.g.encodedLength + pk.y.encodedLength
  | .elgamal => pk.p.encodedLength + pk.g.encodedLength + pk.y.encodedLength
  | .ecdsa => pk.oid.encodedLength + pk.p.encodedLength
  | .ecdh => pk.oid.encodedLength + pk.p.encodedLength + pk.kdf.encodedLength
  | .eddsa => pk.oid.encodedLength + pk.p.encodedLength

/-- `serializeWithoutHeaders`: version byte, 4-byte big-endian creation
time (truncated to `uint32`), algorithm tag, for v5 the 4-byte
algorithm-specific octet count, then the encoded fields in declared
order.  The closing `InvalidArgumentError("bad public-key algorithm")`
branch cannot arise for the closed enumeration. -/
def serializeWithoutHeaders (pk : PublicKey) : Bytes :=
  byteOf pk.version :: (be32 (u32 pk.creationTime) ++ byteOf pk.pubKeyAlgo.id ::
    ((if pk.version = 5 then be32 (algorithmSpecificByteCount pk) else []) ++
      match pk.pubKeyAlgo with
      | .rsa | .rsaEncryptOnly | .rsaSignOnly => pk.n.encodedBytes ++ pk.e.encodedBytes
      | .dsa => pk.p.encodedBytes ++ pk.q.encodedBytes ++ pk.g.encodedBytes ++ pk.y.encodedBytes
      | .elgamal => pk.p.encodedBytes ++ pk.g.encodedBytes ++ pk.y.encodedBytes
      | .ecdsa => pk.oid.encodedBytes ++ pk.p.encodedBytes
      | .ecdh => pk.oid.encodedBytes ++ pk.p.encodedBytes ++ pk.kdf.encodedBytes
      | .eddsa => pk.oid.encodedBytes ++ pk.p.encodedBytes))

/-- `SerializeSignaturePrefix` in the source: the `0x99`/`0x9A` framing
written before the body when hashing a key. -/
def SerializeSignatureHead (pk : PublicKey) : Bytes :=
  let pLength := algorithmSpecificByteCount pk
  if pk.version = 5 then 0x9A :: be32 (pLength + 10)
  else 0x99 :: be16 (pLength + 6)

/-- `SerializeForHash`: the hash preimage, framing then body. -/
def SerializeForHash (pk : PublicKey) : Bytes :=
  SerializeSignatureHead pk ++ serializeWithoutHeaders pk

/-- Modelled from the spec: the outer packet framing written by the
(consumed) `serializeHeader` — a packet-type tag and a length-prefixed
header ("a full-packet length-prefixed header (type tag + remaining
length)"), in the OpenPGP new format. -/
def serializeHeader (packetType : Nat) (length : Nat) : Bytes :=
  (0xC0 ||| packetType) ::
    (if length < 192 then [length]
     else if length < 8384 then [(length - 192) / 256 + 192, (length - 192) % 256]
     else 0xFF :: be32 length)

/-- The public-key packet type tags (`packetTypePublicKey`,
`packetTypePublicSubkey`). -/
def packetTypeTag (pk : PublicKey) : Nat := if pk.isSubkey then 14 else 6

/-- `Serialize`: the full packet — framing header over the body length
(6-byte fixed part, plus 4 for the v5 octet count, plus the
algorithm-specific fields), then the body. -/
def Serialize (pk : PublicKey) : Bytes :=
  let length := 6 + algorithmSpecificByteCount pk + (if pk.version = 5 then 4 else 0)
  serializeHeader (packetTypeTag pk) length ++ serializeWithoutHeaders pk

/-- `setFingerprintAndKeyId`: hash the preimage with SHA-256 (v5,
32-byte fingerprint, key id from the first 8 bytes) or SHA-1 (otherwise,
20-byte fingerprint, key id from bytes 12-19). -/
def setFingerprintAndKeyId (pk : PublicKey) : PublicKey :=
  if pk.version = 5 then
    let fp := sha256Sum (SerializeForHash pk)
    { pk with fingerprint := fp, keyId := beToNat (fp.take 8) }
  else
    let fp := sha1Sum (SerializeForHash pk)
    { pk with fingerprint := fp, keyId := beToNat ((fp.drop 12).take 8) }

/-- The two lines `setFingerprintAndKeyId` prints to standard output
(source lines 259-260: `fmt.Printf("keyid: %x\n", ...)` and
`fmt.Printf("fingerprint: %x\n", ...)`): the lowercase-hex key id and
fingerprint of the key just derived. -/
def setFingerprintAndKeyIdOutput (pk : PublicKey) : List String :=
  let pk1 := setFingerprintAndKeyId pk
  [String.append ("keyid: ") (String.mk (Nat.toDigits 16 pk1.keyId)),
   String.append ("fingerprint: ")
     (String.mk ((pk1.fingerprint.map
       (fun x => [Nat.digitChar (x / 16 % 16), Nat.digitChar (x % 16)])).flatten))]

/-! ## Per-algorithm field readers -/

/-- `parseRSA`: two MPIs `n`, `e`; an exponent encoding longer than 3
bytes is unsupported; the machine-integer exponent accumulates its bytes
by left shifts. -/
def parseRSA (pk : PublicKey) (s : Bytes) : Except PgpError (PublicKey × Bytes) :=
  match MPI.readFrom s with
  | .error err => .error err
  | .ok (nn, s1) =>
  match MPI.readFrom s1 with
  | .error err => .error err
  | .ok (ee, s2) =>
  if 3 < ee.bytes.length then .error (.unsupported ("large public exponent"))
  else
    .ok ({ pk with
            n := nn, e := ee,
            publicKey := .rsaKey (beToNat nn.bytes)
              (ee.bytes.foldl (fun a b => (a <<< 8) ||| b) 0) }, s2)

/-- `parseDSA`: four MPIs `p`, `q`, `g`, `y`. -/
def parseDSA (pk : PublicKey) (s : Bytes) : Except PgpError (PublicKey × Bytes) :=
  match MPI.readFrom s with
  | .error err => .error err
  | .ok (pp, s1) =>
  match MPI.readFrom s1 with
  | .error err => .error err
  | .ok (qq, s2) =>
  match MPI.readFrom s2 with
  | .error err => .error err
  | .ok (gg, s3) =>
  match MPI.readFrom s3 with
  | .error err => .error err
  | .ok (yy, s4) =>
  .ok ({ pk with
          p := pp, q := qq, g := gg, y := yy,
          publicKey := .dsaKey (beToNat pp.bytes) (beToNat qq.bytes)
            (beToNat gg.bytes) (beToNat yy.bytes) }, s4)

/-- `parseElGamal`: three MPIs `p`, `g`, `y`. -/
def parseElGamal (pk : PublicKey) (s : Bytes) : Except PgpError (PublicKey × Bytes) :=
  match MPI.readFrom s with
  | .error err => .error err
  | .ok (pp, s1) =>
  match MPI.readFrom s1 with
  | .error err => .error err
  | .ok (gg, s2) =>
  match MPI.readFrom s2 with
  | .error err => .error err
  | .ok (yy, s3) =>
  .ok ({ pk with
          p := pp, g := gg, y := yy,
          publicKey := .elgamalKey (beToNat pp.bytes) (beToNat gg.bytes)
            (beToNat yy.bytes) }, s3)

/-- `parseECDSA`: an OID and a point MPI; the OID must resolve to an
ECDSA-family curve and the point must decode. -/
def parseECDSA (pk : PublicKey) (s : Bytes) : Except PgpError (PublicKey × Bytes) :=
  match OID.readFrom s with
  | .error err => .error err
  | .ok (oo, s1) =>
  match MPI.readFrom s1 with
  | .error err => .error err
  | .ok (pp, s2) =>
  match findByOid oo with
  | none => .error (.unsupported ("unsupported oid"))
  | some ci =>
  if ci.sigAlgorithm ≠ .forECDSA then .error (.unsupported ("unsupported oid"))
  else
    match ellipticUnmarshal ci pp.bytes with
    | none => .error (.unsupported ("failed to parse EC point"))
    | some (x, yv) =>
      .ok ({ pk with
              oid := oo, p := pp, publicKey := .ecdsaKey ci.name x yv }, s2)

/-- `parseECDH`: OID, point MPI and KDF OID; the OID must resolve; a
Curve25519 point is taken as raw bytes, otherwise the uncompressed
encoding must decode; the KDF parameters must be at least 3 bytes,
reserved byte `0x01`, with known hash and cipher ids. -/
def parseECDH (pk : PublicKey) (s : Bytes) : Except PgpError (PublicKey × Bytes) :=
  match OID.readFrom s with
  | .error err => .error err
  | .ok (oo, s1) =>
  match MPI.readFrom s1 with
  | .error err => .error err
  | .ok (pp, s2) =>
  match OID.readFrom s2 with
  | .error err => .error err
  | .ok (kk, s3) =>
  match findByOid oo with
  | none => .error (.unsupported ("unsupported oid"))
  | some ci =>
  let xy : Option (Nat × Nat) :=
    if ci.isCurve25519 then some (beToNat pp.bytes, 0)
    else ellipticUnmarshal ci pp.bytes
  match xy with
  | none => .error (.unsupported ("failed to parse EC point"))
  | some (x, yv) =>
  if kk.bytes.length < 3 then .error (.unsupported ("unsupported ECDH KDF length"))
  else if kk.bytes.headD 0 ≠ 0x01 then
    .error (.unsupported ("unsupported KDF reserved field"))
  else if ¬ hashIdKnown (kk.bytes.getD 1 0) then
    .error (.unsupported ("unsupported ECDH KDF hash"))
  else if ¬ cipherIdKnown (kk.bytes.getD 2 0) then
    .error (.unsupported ("unsupported ECDH KDF cipher"))
  else
    .ok ({ pk with
            oid := oo, p := pp, kdf := kk,
            publicKey := .ecdhKey ci.name x yv (kk.bytes.getD 1 0)
              (kk.bytes.getD 2 0) }, s3)

/-- `parseEdDSA`: an OID that must resolve to the EdDSA family, then the
point MPI.  The source then reads `pk.p.Bytes()[0]` unconditionally;
on a zero-length point this indexing is out of range (a Go runtime
panic), embedded as the `.outOfBounds` outcome.  Marker `0x40` copies up
to 32 point bytes into a zero-filled 32-byte key; `0x04` and all other
markers are unsupported. -/
def parseEdDSA (pk : PublicKey) (s : Bytes) : Except PgpError (PublicKey × Bytes) :=
  match OID.readFrom s with
  | .error err => .error err
  | .ok (oo, s1) =>
  match findByOid oo with
  | none => .error (.unsupported ("unsupported oid"))
  | some ci =>
  if ci.sigAlgorithm ≠ .forEdDSA then .error (.unsupported ("unsupported oid"))
  else
  match MPI.readFrom s1 with
  | .error err => .error err
  | .ok (pp, s2) =>
  match pp.bytes with
  | [] => .error .outOfBounds
  | flag :: restBytes =>
    if flag = 0x04 then .error (.unsupported ("unsupported EdDSA compression"))
    else if flag = 0x40 then
      .ok ({ pk with
              oid := oo, p := pp,
              publicKey := .eddsaKey ((restBytes ++ List.replicate 32 0).take 32) }, s2)
    else .error (.unsupported ("unsupported EdDSA compression"))

/-- `parse`: six header bytes (version, 4-byte big-endian creation
time, algorithm tag); version must be 4 or 5; v5 additionally reads and
discards a 4-byte octet count; dispatch to the per-algorithm reader;
on success derive the fingerprint and key id. -/
def parse (s : Bytes) : Except PgpError (PublicKey × Bytes) :=
  match s with
  | b0 :: b1 :: b2 :: b3 :: b4 :: b5 :: rest =>
    if b0 = 4 ∨ b0 = 5 then
      match (if b0 = 5 then
               (if 4 ≤ rest.length then Except.ok (rest.drop 4)
                else Except.error PgpError.readFailure)
             else Except.ok rest) with
      | .error err => .error err
      | .ok rest2 =>
        let creationTime := u32 ((b1 <<< 24) ||| ((b2 <<< 16) ||| ((b3 <<< 8) ||| b4)))
        match PublicKeyAlgorithm.ofByte b5 with
        | none => .error (.unsupported ("public key type"))
        | some algo =>
          let pk0 : PublicKey :=
            { version := b0, creationTime := creationTime, pubKeyAlgo := algo }
          let parsed :=
            match algo with
            | .rsa | .rsaEncryptOnly | .rsaSignOnly => parseRSA pk0 rest2
            | .dsa => parseDSA pk0 rest2
            | .elgamal => parseElGamal pk0 rest2
            | .ecdsa => parseECDSA pk0 rest2
            | .ecdh => parseECDH pk0 rest2
            | .eddsa => parseEdDSA pk0 rest2
          match parsed with
          | .error err => .error err
          | .ok (pk1, rest3) => .ok (setFingerprintAndKeyId pk1, rest3)
    else .error (.unsupported ("public key version"))
  | _ => .error .readFailure

/-- The per-algorithm dispatch of `parse` (its `switch pk.PubKeyAlgo`). -/
def parseAlgoFields (pkb : PublicKey) (s : Bytes) : Except PgpError (PublicKey × Bytes) :=
  match pkb.pubKeyAlgo with
  | .rsa | .rsaEncryptOnly | .rsaSignOnly => parseRSA pkb s
  | .dsa => parseDSA pkb s
  | .elgamal => parseElGamal pkb s
  | .ecdsa => parseECDSA pkb s
  | .ecdh => parseECDH pkb s
  | .eddsa => parseEdDSA pkb s

/-! ## Wrapping constructors -/

/-- `NewRSAPublicKey`. -/
def NewRSAPublicKey (creationTime : Nat) (pubN pubE : Nat) : PublicKey :=
  setFingerprintAndKeyId
    { version := 4, creationTime := creationTime, pubKeyAlgo := .rsa,
      publicKey := .rsaKey pubN pubE, n := MPI.setBig pubN, e := MPI.setBig pubE }

/-- `NewDSAPublicKey`. -/
def NewDSAPublicKey (creationTime : Nat) (pubP pubQ pubG pubY : Nat) : PublicKey :=
  setFingerprintAndKeyId
    { version := 4, creationTime := creationTime, pubKeyAlgo := .dsa,
      publicKey := .dsaKey pubP pubQ pubG pubY,
      p := MPI.setBig pubP, q := MPI.setBig pubQ, g := MPI.setBig pubG,
      y := MPI.setBig pubY }

/-- `NewElGamalPublicKey`. -/
def NewElGamalPublicKey (creationTime : Nat) (pubP pubG pubY : Nat) : PublicKey :=
  setFingerprintAndKeyId
    { version := 4, creationTime := creationTime, pubKeyAlgo := .elgamal,
      publicKey := .elgamalKey pubP pubG pubY,
      p := MPI.setBig pubP, g := MPI.setBig pubG, y := MPI.setBig pubY }

/-- `NewECDSAPublicKey`; the curve is supplied as its registry entry
(the Go code panics when the curve is unregistered, so only registered
curves reach this constructor). -/
def NewECDSAPublicKey (creationTime : Nat) (ci : CurveInfo) (x yv : Nat) : PublicKey :=
  setFingerprintAndKeyId
    { version := 4, creationTime := creationTime, pubKeyAlgo := .ecdsa,
      publicKey := .ecdsaKey ci.name x yv,
      p := NewMPI (ellipticMarshal ci x yv), oid := ⟨ci.oidBytes⟩ }

/-- `NewECDHPublicKey`: the KDF OID is `[0x01, hashId, cipherId]`; a
Curve25519 point is the raw coordinate bytes, any other curve uses the
uncompressed encoding. -/
def NewECDHPublicKey (creationTime : Nat) (ci : CurveInfo) (x yv : Nat)
    (kdfHash kdfCipher : Nat) : PublicKey :=
  setFingerprintAndKeyId
    { version := 4, creationTime := creationTime, pubKeyAlgo := .ecdh,
      publicKey := .ecdhKey ci.name x yv kdfHash kdfCipher,
      p := if ci.isCurve25519 then NewMPI (natBytesBE x)
           else NewMPI (ellipticMarshal ci x yv),
      oid := ⟨ci.oidBytes⟩, kdf := ⟨[0x1, kdfHash, kdfCipher]⟩ }

/-- `NewEdDSAPublicKey`: the point is the native-format marker `0x40`
followed by the 32 raw key bytes. -/
def NewEdDSAPublicKey (creationTime : Nat) (pub : Bytes) : PublicKey :=
  setFingerprintAndKeyId
    { version := 4, creationTime := creationTime, pubKeyAlgo := .eddsa,
      publicKey := .eddsaKey pub,
      oid := ⟨[0x2B, 0x06, 0x01, 0x04, 0x01, 0xDA, 0x47, 0x0F, 0x01]⟩,
      p := NewMPI (0x40 :: pub) }

/-- `UpgradeToV5`: set the version to 5 and re-derive the fingerprint
and key id. -/
def UpgradeToV5 (pk : PublicKey) : PublicKey :=
  setFingerprintAndKeyId { pk with version := 5 }

/-! ## Formatting and capability helpers -/

/-- An uppercase hexadecimal digit. -/
def hexDigitU (n : Nat) : Char :=
  if n < 10 then Char.ofNat (48 + n) else Char.ofNat (55 + n)

/-- Uppercase-hex rendering of a byte string (Go `fmt.Sprintf("%X", b)`
on a byte slice: two digits per byte). -/
def hexUpperBytes (b : Bytes) : String :=
  String.mk ((b.map (fun x => [hexDigitU (x / 16 % 16), hexDigitU (x % 16)])).flatten)

/-- `KeyIdString`: uppercase hex of fingerprint bytes 12-19. -/
def KeyIdString (pk : PublicKey) : String :=
  hexUpperBytes ((pk.fingerprint.drop 12).take 8)

/-- `KeyIdShortString`: uppercase hex of fingerprint bytes 16-19. -/
def KeyIdShortString (pk : PublicKey) : String :=
  hexUpperBytes ((pk.fingerprint.drop 16).take 4)

/-- `CanSign`: every algorithm except encrypt-only RSA, ElGamal and
ECDH. -/
def CanSign (pk : PublicKey) : Bool :=
  pk.pubKeyAlgo != .rsaEncryptOnly && pk.pubKeyAlgo != .elgamal && pk.pubKeyAlgo != .ecdh

/-! ## Signature collaborator and verification

The `Signature` packet is consumed as an opaque structure (spec section
6): hash algorithm, version, type, hash-suffix bytes, the 2-byte
hash tag, per-algorithm signature components, the sign-capability flag,
an optional embedded signature, and the mutator that appends version-5
metadata to the hash suffix. -/

/-- The hash-algorithm handle (`crypto.Hash`).  The repository's `init`
functions register SHA-1, SHA-256 and SHA-512; any other id is
unavailable. -/
inductive HashAlgo where
  | sha1
  | sha256
  | sha512
  | other (id : Nat)
deriving Repr, DecidableEq

/-- `hashFunc.Available()`. -/
def HashAlgo.available : HashAlgo → Bool
  | .other _ => false
  | _ => true

/-- The external cryptographic primitives consumed by the verifier
(modelled from the spec as opaque collaborators): the asymmetric
verification functions for each family, and the digest function of any
hash registered outside this repository. -/
structure CryptoPrims where
  rsaVerify : Nat → Nat → HashAlgo → Bytes → Bytes → Bool
  dsaVerify : Nat → Nat → Nat → Nat → Bytes → Nat → Nat → Bool
  ecdsaVerify : String → Nat → Nat → Bytes → Nat → Nat → Bool
  eddsaVerify : Bytes → Bytes → Bytes → Bool
  otherHash : Nat → Bytes → Bytes

/-- The digest over accumulated bytes for a given hash handle; SHA-1 is
this repository's implementation, SHA-256/512 the modelled externals. -/
def hashDigest (prims : CryptoPrims) : HashAlgo → Bytes → Bytes
  | .sha1, m => sha1Sum m
  | .sha256, m => sha256Sum m
  | .sha512, m => sha512Sum m
  | .other id, m => prims.otherHash id m

/-- The version-independent fields of a `Signature` value. -/
structure SigFields where
  version : Nat
  sigType : Nat
  pubKeyAlgo : PublicKeyAlgorithm
  hash : HashAlgo
  hashSuffix : Bytes
  hashTag0 : Nat
  hashTag1 : Nat
  metadataSuffix : Bytes
  rsaSignature : MPI := ⟨0, []⟩
  dsaSigR : MPI := ⟨0, []⟩
  dsaSigS : MPI := ⟨0, []⟩
  ecdsaSigR : MPI := ⟨0, []⟩
  ecdsaSigS : MPI := ⟨0, []⟩
  eddsaSigR : MPI := ⟨0, []⟩
  eddsaSigS : MPI := ⟨0, []⟩
  flagSign : Bool := false
deriving Repr, DecidableEq

/-- A `Signature` with its optional embedded cross-signature (the Go
`*Signature` pointer, one level as used by the verifier). -/
inductive Signature where
  | mk (fields : SigFields) (embeddedSignature : Option Signature)

/-- The field record of a signature. -/
def Signature.fields : Signature → SigFields
  | .mk f _ => f

/-- The optional embedded cross-signature. -/
def Signature.embeddedSignature : Signature → Option Signature
  | .mk _ es => es

/-- Modelled from the spec: `sig.AddMetadataToHashSuffix` — "a mutator
that appends version-5 metadata to the hash suffix", owned by the
signature object. -/
def SigFields.addMetadataToHashSuffix (sig : SigFields) : SigFields :=
  { sig with hashSuffix := sig.hashSuffix ++ sig.metadataSuffix }

/-- The signature value actually hashed by `VerifySignature`: the
metadata mutator is applied exactly when the signature is version 5 of
type `0x00` or `0x01` (source lines 666-668). -/
def verifyEffectiveSig (sig : SigFields) : SigFields :=
  if sig.version = 5 ∧ (sig.sigType = 0x00 ∨ sig.sigType = 0x01) then
    sig.addMetadataToHashSuffix
  else sig

/-- Modelled from the spec: `padToKeySize` — the RSA signature value is
zero-padded on the left up to the modulus's byte size. -/
def padToKeySize (n : Nat) (b : Bytes) : Bytes :=
  List.replicate ((natBitLen n + 7) / 8 - b.length) 0 ++ b

/-- `PublicKey.VerifySignature`: reject non-signing keys; apply the
v5 metadata mutation; feed the (possibly extended) hash suffix into the
supplied hash context (embedded as the accumulated bytes `acc` plus the
context's algorithm) and take the digest; check the 2-byte hash tag;
check the algorithm tags agree; dispatch the asymmetric check.  The
non-comma-ok interface casts of the ECDSA/EdDSA arms panic when the
native key has the wrong shape; those panics are embedded as
`.outOfBounds`. -/
def VerifySignature (prims : CryptoPrims) (pk : PublicKey) (algo : HashAlgo)
    (acc : Bytes) (sig0 : SigFields) : Except PgpError Unit :=
  if ¬ CanSign pk then .error (.invalidArgument ("public key cannot generate signatures"))
  else
    let sig := verifyEffectiveSig sig0
    let hashBytes := hashDigest prims algo (acc ++ sig.hashSuffix)
    if hashBytes.getD 0 0 ≠ sig.hashTag0 ∨ hashBytes.getD 1 0 ≠ sig.hashTag1 then
      .error (.signatureError ("hash tag does not match"))
    else if pk.pubKeyAlgo ≠ sig.pubKeyAlgo then
      .error (.invalidArgument ("public key and signature use different algorithms"))
    else
      match pk.pubKeyAlgo with
      | .rsa | .rsaSignOnly =>
        match pk.publicKey with
        | .rsaKey kn ke =>
          if prims.rsaVerify kn ke sig.hash hashBytes
              (padToKeySize kn sig.rsaSignature.bytes) then .ok ()
          else .error (.signatureError ("RSA verification failure"))
        | _ => .error (.signatureError ("RSA verification failure"))
      | .dsa =>
        match pk.publicKey with
        | .dsaKey kp kq kg ky =>
          let subgroupSize := (natBitLen kq + 7) / 8
          let hb := if subgroupSize < hashBytes.length then hashBytes.take subgroupSize
                    else hashBytes
          if prims.dsaVerify kp kq kg ky hb (beToNat sig.dsaSigR.bytes)
              (beToNat sig.dsaSigS.bytes) then .ok ()
          else .error (.signatureError ("DSA verification failure"))
        | _ => .error (.signatureError ("DSA verification failure"))
      | .ecdsa =>
        match pk.publicKey with
        | .ecdsaKey c kx ky =>
          if prims.ecdsaVerify c kx ky hashBytes (beToNat sig.ecdsaSigR.bytes)
              (beToNat sig.ecdsaSigS.bytes) then .ok ()
          else .error (.signatureError ("ECDSA verification failure"))
        | _ => .error .outOfBounds
      | .eddsa =>
        match pk.publicKey with
        | .eddsaKey kb =>
          let sigR := sig.eddsaSigR.bytes
          let sigS := sig.eddsaSigS.bytes
          let eddsaSig := List.replicate (32 - sigR.length) 0 ++ sigR ++
            List.replicate (32 - sigS.length) 0 ++ sigS
          if prims.eddsaVerify kb hashBytes eddsaSig then .ok ()
          else .error (.signatureError ("EdDSA verification failure"))
        | _ => .error .outOfBounds
      | _ => .error (.signatureError ("Unsupported public key algorithm used in signature"))

/-- `keySignatureHash`: build a context for the declared hash algorithm
(unavailable algorithms are unsupported), write the signing key's
preimage, then the signed key's preimage; the context is embedded as the
accumulated bytes. -/
def keySignatureHash (pk signed : PublicKey) (hashFunc : HashAlgo) :
    Except PgpError Bytes :=
  if ¬ hashFunc.available then .error (.unsupported ("hash function"))
  else .ok (SerializeForHash pk ++ SerializeForHash signed)

/-- `PublicKey.VerifyKeySignature`: verify the binding signature over
the key-signature hash; then, when the signature declares signing
capability, require an embedded cross-signature (its absence is the
structural failure) and verify it under the subkey's (`signed`'s) key
over the same hash construction, wrapping its failures as structural
errors. -/
def VerifyKeySignature (prims : CryptoPrims) (pk signed : PublicKey)
    (sig : Signature) : Except PgpError Unit :=
  match keySignatureHash pk signed sig.fields.hash with
  | .error err => .error err
  | .ok acc =>
  match VerifySignature prims pk sig.fields.hash acc sig.fields with
  | .error err => .error err
  | .ok _ =>
  if sig.fields.flagSign then
    match sig.embeddedSignature with
    | none => .error (.structural ("signing subkey is missing cross-signature"))
    | some esig =>
      match keySignatureHash pk signed esig.fields.hash with
      | .error _ => .error (.structural ("error while hashing for cross-signature"))
      | .ok acc2 =>
        match VerifySignature prims signed esig.fields.hash acc2 esig.fields with
        | .error _ => .error (.structural ("error while verifying cross-signature"))
        | .ok _ => .ok ()
  else .ok ()

/-! ## Specification-side definitions

These restate the hash-preimage layout in the words of spec section 4.3,
to be compared against the translated serializer. -/

/-- Spec section 4.3 / section 3: the algorithm-specific encoded fields,
"each field being its MPI/OID encoding including its own length prefix,
concatenated in the per-algorithm order defined in section 3". -/
def specAlgoFields (pk : PublicKey) : Bytes :=
  match pk.pubKeyAlgo with
  | .rsa | .rsaEncryptOnly | .rsaSignOnly => pk.n.encodedBytes ++ pk.e.encodedBytes
  | .dsa => pk.p.encodedBytes ++ pk.q.encodedBytes ++ pk.g.encodedBytes ++ pk.y.encodedBytes
  | .elgamal => pk.p.encodedBytes ++ pk.g.encodedBytes ++ pk.y.encodedBytes
  | .ecdsa => pk.oid.encodedBytes ++ pk.p.encodedBytes
  | .ecdh => pk.oid.encodedBytes ++ pk.p.encodedBytes ++ pk.kdf.encodedBytes
  | .eddsa => pk.oid.encodedBytes ++ pk.p.encodedBytes

/-- Spec section 4.3: the *body* — version byte, 4-byte big-endian
creation time, algorithm tag byte, for v5 the 4-byte big-endian
algorithm-specific octet count, then the algorithm-specific fields. -/
def specBody (pk : PublicKey) : Bytes :=
  pk.version :: (be32 pk.creationTime ++ pk.pubKeyAlgo.id ::
    ((if pk.version = 5 then be32 (specAlgoFields pk).length else []) ++ specAlgoFields pk))

/-- Spec section 4.3: with `L` the byte length of the algorithm-specific
fields only, the v4 framing is `0x99` then the 2-byte big-endian value
`L+6`, and the v5 framing is `0x9A` then the 4-byte big-endian value
`L+10`. -/
def specFraming (pk : PublicKey) : Bytes :=
  let L := (specAlgoFields pk).length
  if pk.version = 5 then
    [0x9A, (L + 10) / 16777216, (L + 10) / 65536 % 256, (L + 10) / 256 % 256, (L + 10) % 256]
  else
    [0x99, (L + 6) / 256, (L + 6) % 256]

/-! ## Validity of a key value (for the round-trip law)

A "valid (version, algorithm, parameters) combination" in the sense of
spec sections 3 and 8: a representable version and timestamp, wire-sound
MPI/OID fields, the per-algorithm constraints that `parse` enforces, and
the fingerprint/key-id consistency invariant of spec section 3. -/

/-- A wire-sound MPI: the bit length fits its 2-byte prefix and agrees
with the number of value bytes. -/
def mpiWfB (m : MPI) : Bool :=
  decide (m.bitLength < 65536) && (m.bytes.length == (m.bitLength + 7) / 8)

/-- A wire-sound OID: the byte count fits its 1-byte prefix. -/
def oidWfB (o : OID) : Bool := decide (o.bytes.length < 256)

/-- The per-algorithm parameter constraints enforced by the parser. -/
def algoParamsOk (pk : PublicKey) : Bool :=
  match pk.pubKeyAlgo with
  | .rsa | .rsaEncryptOnly | .rsaSignOnly =>
    mpiWfB pk.n && mpiWfB pk.e && decide (pk.e.bytes.length ≤ 3)
  | .dsa => mpiWfB pk.p && mpiWfB pk.q && mpiWfB pk.g && mpiWfB pk.y
  | .elgamal => mpiWfB pk.p && mpiWfB pk.g && mpiWfB pk.y
  | .ecdsa =>
    oidWfB pk.oid && mpiWfB pk.p &&
    (match findByOid pk.oid with
     | some ci => ci.sigAlgorithm == .forECDSA && (ellipticUnmarshal ci pk.p.bytes).isSome
     | none => false)
  | .ecdh =>
    oidWfB pk.oid && mpiWfB pk.p && oidWfB pk.kdf &&
    (match findByOid pk.oid with
     | some ci => ci.isCurve25519 || (ellipticUnmarshal ci pk.p.bytes).isSome
     | none => false) &&
    decide (3 ≤ pk.kdf.bytes.length) && (pk.kdf.bytes.headD 0 == 0x01) &&
    hashIdKnown (pk.kdf.bytes.getD 1 0) && cipherIdKnown (pk.kdf.bytes.getD 2 0)
  | .eddsa =>
    oidWfB pk.oid && mpiWfB pk.p &&
    (match findByOid pk.oid with
     | some ci => ci.sigAlgorithm == .forEdDSA
     | none => false) &&
    (pk.p.bytes.headD 0 == 0x40) && !pk.p.bytes.isEmpty

/-- Spec section 3 invariant: "the algorithm-specific field set present
in `algorithmParameters` must exactly match the set required by
`algorithm`" — the codec fields a given algorithm does not use hold
their zero values. -/
def unusedFieldsDefault (pk : PublicKey) : Bool :=
  match pk.pubKeyAlgo with
  | .rsa | .rsaEncryptOnly | .rsaSignOnly =>
    pk.p == ⟨0, []⟩ && pk.q == ⟨0, []⟩ && pk.g == ⟨0, []⟩ && pk.y == ⟨0, []⟩ &&
    pk.oid == ⟨[]⟩ && pk.kdf == ⟨[]⟩
  | .dsa =>
    pk.n == ⟨0, []⟩ && pk.e == ⟨0, []⟩ && pk.oid == ⟨[]⟩ && pk.kdf == ⟨[]⟩
  | .elgamal =>
    pk.n == ⟨0, []⟩ && pk.e == ⟨0, []⟩ && pk.q == ⟨0, []⟩ && pk.oid == ⟨[]⟩ &&
    pk.kdf == ⟨[]⟩
  | .ecdsa =>
    pk.n == ⟨0, []⟩ && pk.e == ⟨0, []⟩ && pk.q == ⟨0, []⟩ && pk.g == ⟨0, []⟩ &&
    pk.y == ⟨0, []⟩ && pk.kdf == ⟨[]⟩
  | .ecdh =>
    pk.n == ⟨0, []⟩ && pk.e == ⟨0, []⟩ && pk.q == ⟨0, []⟩ && pk.g == ⟨0, []⟩ &&
    pk.y == ⟨0, []⟩
  | .eddsa =>
    pk.n == ⟨0, []⟩ && pk.e == ⟨0, []⟩ && pk.q == ⟨0, []⟩ && pk.g == ⟨0, []⟩ &&
    pk.y == ⟨0, []⟩ && pk.kdf == ⟨[]⟩

/-- A valid key value: version 4 or 5, a timestamp representable in its
4-byte field, sound parameters, only the fields its algorithm requires,
and fingerprint/key-id consistent with the current fields. -/
def ValidKey (pk : PublicKey) : Bool :=
  (pk.version == 4 || pk.version == 5) && decide (pk.creationTime < 4294967296) &&
  (pk == setFingerprintAndKeyId pk) && algoParamsOk pk && unusedFieldsDefault pk

/-! ## Concrete values used by witnesses and counterexamples -/

/-- A small v4 RSA key (modulus `0x65`, exponent 3, creation time 0)
before fingerprint derivation. -/
def pk0raw : PublicKey :=
  { version := 4, creationTime := 0, pubKeyAlgo := .rsa, publicKey := .rsaKey 0x65 3,
    n := MPI.setBig 0x65, e := MPI.setBig 3 }

/-- The same key with its fingerprint and key id derived. -/
def pk0 : PublicKey := setFingerprintAndKeyId pk0raw

/-- The v5 form of the same key material. -/
def pk5 : PublicKey := setFingerprintAndKeyId { pk0raw with version := 5 }

/-- External primitives that accept every asymmetric signature (the
collaborators are opaque to this core, so any instantiation exercises
the core's own control flow). -/
def acceptAllPrims : CryptoPrims :=
  { rsaVerify := fun _ _ _ _ _ => true, dsaVerify := fun _ _ _ _ _ _ _ => true,
    ecdsaVerify := fun _ _ _ _ _ _ => true, eddsaVerify := fun _ _ _ => true,
    otherHash := fun _ _ => [] }

/-- A version-5 signature of subkey-binding type `0x18` with a
non-empty metadata suffix and the hash tag of the empty message under
SHA-1 (`0xda`, `0x39`). -/
def sig518 : SigFields :=
  { version := 5, sigType := 0x18, pubKeyAlgo := .rsa, hash := .sha1, hashSuffix := [],
    hashTag0 := 0xda, hashTag1 := 0x39, metadataSuffix := [1] }


/-- An outer subkey-binding signature over `pk0`'s key pair: v4 type
`0x18`, SHA-1, tag of the doubled `pk0` preimage, signing-capable. -/
def sigOuter : SigFields :=
  { version := 4, sigType := 0x18, pubKeyAlgo := .rsa, hash := .sha1, hashSuffix := [],
    hashTag0 := 0x76, hashTag1 := 0xee, metadataSuffix := [], flagSign := true }

/-- An embedded cross-signature over the same pair under SHA-256. -/
def sigEmbedded : SigFields :=
  { version := 4, sigType := 0x19, pubKeyAlgo := .rsa, hash := .sha256, hashSuffix := [],
    hashTag0 := 0x68, hashTag1 := 0xfe, metadataSuffix := [] }

/-! # Lemmas -/

/-! ## SHA-1 buffer accounting -/

theorem sha1BlockOne_x (d : Sha1Digest) (c : Bytes) : (sha1BlockOne d c).x = d.x := by
  simp only [sha1BlockOne]

theorem sha1BlockOne_len (d : Sha1Digest) (c : Bytes) : (sha1BlockOne d c).len = d.len := by
  simp only [sha1BlockOne]

theorem sha1Blocks_x (d : Sha1Digest) (l : List Bytes) : (sha1Blocks d l).x = d.x := by
  induction l generalizing d with
  | nil => rfl
  | cons c t ih => simpa [sha1Blocks, sha1BlockOne_x] using ih (sha1BlockOne d c)

theorem sha1Blocks_len (d : Sha1Digest) (l : List Bytes) : (sha1Blocks d l).len = d.len := by
  induction l generalizing d with
  | nil => rfl
  | cons c t ih => simpa [sha1Blocks, sha1BlockOne_len] using ih (sha1BlockOne d c)

theorem sha1WriteStep1_spec (d : Sha1Digest) (p : Bytes) (h : d.x.length < 64) :
    ((sha1WriteStep1 d p).1.x.length + (sha1WriteStep1 d p).2.length) % 64 =
      (d.x.length + p.length) % 64
    ∧ ((sha1WriteStep1 d p).1.x.length = 0 ∨ (sha1WriteStep1 d p).2 = [])
    ∧ (sha1WriteStep1 d p).1.x.length < 64 := by
  unfold sha1WriteStep1
  by_cases h1 : 0 < d.x.length
  · simp only [h1, if_true]
    by_cases h2 : (d.x ++ p.take (min (64 - d.x.length) p.length)).length = 64
    · simp only [h2, if_true, sha1Blocks_x, List.length_nil, List.length_drop]
      simp only [List.length_append, List.length_take] at h2
      refine ⟨by omega, Or.inl (by trivial), by omega⟩
    · simp only [h2, if_false]
      simp only [List.length_append, List.length_take] at h2 ⊢
      have hn : min (64 - d.x.length) p.length = p.length := by omega
      rw [hn, List.drop_length]
      refine ⟨by simp, Or.inr rfl, by omega⟩
  · simp only [h1, if_false]
    exact ⟨by trivial, Or.inl (by omega), h⟩

theorem sha1WriteStep2_spec (dp : Sha1Digest × Bytes) :
    (sha1WriteStep2 dp).1.x.length = dp.1.x.length
    ∧ (sha1WriteStep2 dp).2.length % 64 = dp.2.length % 64
    ∧ (sha1WriteStep2 dp).2.length < 64 := by
  unfold sha1WriteStep2
  by_cases h1 : 64 ≤ dp.2.length
  · simp only [h1, if_true, sha1Blocks_x, List.length_drop]
    refine ⟨by trivial, by omega, by omega⟩
  · simp only [h1, if_false]
    exact ⟨by trivial, by trivial, by omega⟩

theorem sha1WriteStep3_x_length (dp : Sha1Digest × Bytes) :
    (sha1WriteStep3 dp).x.length = if 0 < dp.2.length then dp.2.length else dp.1.x.length := by
  unfold sha1WriteStep3
  split <;> rfl

theorem sha1Write_x_length (d : Sha1Digest) (p : Bytes) (h : d.x.length < 64) :
    (sha1Write d p).x.length = (d.x.length + p.length) % 64 := by
  unfold sha1Write
  have h1 := sha1WriteStep1_spec { d with len := u64 (d.len + p.length) } p h
  have h2 := sha1WriteStep2_spec (sha1WriteStep1 { d with len := u64 (d.len + p.length) } p)
  rw [sha1WriteStep3_x_length]
  rcases h1 with ⟨hsum, hdisj, hlt⟩
  rcases h2 with ⟨hx2, hp2, hp2lt⟩
  dsimp only at hsum hdisj hlt
  rcases hdisj with hz | hnil
  · split
    · omega
    · rw [hx2, hz]
      omega
  · have : (sha1WriteStep1 { d with len := u64 (d.len + p.length) } p).2.length = 0 := by
      rw [hnil]; rfl
    split
    · omega
    · rw [hx2]
      omega

theorem sha1WriteStep1_len (d : Sha1Digest) (p : Bytes) :
    (sha1WriteStep1 d p).1.len = d.len := by
  unfold sha1WriteStep1
  split
  · dsimp only
    split
    · simp [sha1Blocks_len]
    · simp
  · rfl

theorem sha1WriteStep2_len (dp : Sha1Digest × Bytes) :
    (sha1WriteStep2 dp).1.len = dp.1.len := by
  unfold sha1WriteStep2
  split
  · simp [sha1Blocks_len]
  · rfl

theorem sha1Write_len (d : Sha1Digest) (p : Bytes) :
    (sha1Write d p).len = u64 (d.len + p.length) := by
  unfold sha1Write sha1WriteStep3
  split
  · rw [sha1WriteStep2_len, sha1WriteStep1_len]
  · rw [sha1WriteStep2_len, sha1WriteStep1_len]

/-- The central buffering invariant: the buffered byte count always
equals the running length modulo the chunk size. -/
def Sha1Wf (d : Sha1Digest) : Prop := d.x.length = d.len % 64

theorem sha1Write_wf (d : Sha1Digest) (p : Bytes) (h : Sha1Wf d) :
    Sha1Wf (sha1Write d p) := by
  unfold Sha1Wf at *
  have hlt : d.x.length < 64 := by omega
  rw [sha1Write_x_length d p hlt, sha1Write_len d p, h]
  unfold u64
  omega

theorem sha1Init_wf : Sha1Wf sha1Init := rfl

theorem sha1_foldl_wf (msgs : List Bytes) (d : Sha1Digest) (h : Sha1Wf d) :
    Sha1Wf (msgs.foldl sha1Write d) := by
  induction msgs generalizing d with
  | nil => exact h
  | cons m t ih => exact ih _ (sha1Write_wf d m h)

theorem sha1CheckSumState_x_length (d : Sha1Digest) (h : Sha1Wf d) :
    (sha1CheckSumState d).x.length = 0 := by
  unfold Sha1Wf at h
  have hlt : d.x.length < 64 := by omega
  unfold sha1CheckSumState
  have hpad : (0x80 :: List.replicate (sha1PadLen d.len - 1) 0).length = sha1PadLen d.len := by
    simp [List.length_replicate, sha1PadLen]
    split <;> omega
  have h1 : (sha1Write d (0x80 :: List.replicate (sha1PadLen d.len - 1) 0)).x.length = 56 := by
    rw [sha1Write_x_length d _ hlt, hpad, h]
    unfold sha1PadLen
    split <;> omega
  have h2 : (sha1Write d (0x80 :: List.replicate (sha1PadLen d.len - 1) 0)).x.length < 64 := by
    omega
  rw [sha1Write_x_length _ _ h2, h1]
  simp [be64]

theorem sha1CheckSum_isSome (d : Sha1Digest) (h : Sha1Wf d) :
    (sha1CheckSum d).isSome = true := by
  unfold sha1CheckSum
  simp [sha1CheckSumState_x_length d h]

theorem sha1CheckSum_length (d : Sha1Digest) (h : Sha1Wf d) :
    ((sha1CheckSum d).getD []).length = 20 := by
  unfold sha1CheckSum
  simp [sha1CheckSumState_x_length d h, be32]

theorem sha1Sum_length (data : Bytes) : (sha1Sum data).length = 20 := by
  unfold sha1Sum
  exact sha1CheckSum_length _ (sha1Write_wf _ _ sha1Init_wf)

theorem sha1Sum_bytes_lt (data : Bytes) : ∀ b ∈ sha1Sum data, b < 256 := by
  unfold sha1Sum sha1CheckSum
  intro b hb
  dsimp only at hb
  split at hb <;> (simp_all [be32, byteOf]; try omega)

/-! ## SHA-256 digest shape -/

theorem sha256BlockOne_length (h : List Nat) (c : Bytes) : (sha256BlockOne h c).length = 8 := by
  simp only [sha256BlockOne]
  rfl

theorem sha256_foldl_length (l : List Bytes) (h : List Nat) (hh : h.length = 8) :
    (l.foldl sha256BlockOne h).length = 8 := by
  induction l generalizing h with
  | nil => exact hh
  | cons c t ih => exact ih _ (sha256BlockOne_length h c)

theorem be32_length (x : Nat) : (be32 x).length = 4 := rfl

theorem foldr_be32_length (l : List Nat) :
    (l.foldr (fun h acc => be32 h ++ acc) ([] : Bytes)).length = 4 * l.length := by
  induction l with
  | nil => rfl
  | cons h t ih =>
    simp only [List.foldr_cons, List.length_append, be32_length, ih, List.length_cons]
    omega

theorem sha256Sum_length (msg : Bytes) : (sha256Sum msg).length = 32 := by
  unfold sha256Sum
  rw [foldr_be32_length, sha256_foldl_length _ _ (by rfl)]

theorem foldr_be32_bytes_lt (l : List Nat) :
    ∀ b ∈ l.foldr (fun h acc => be32 h ++ acc) ([] : Bytes), b < 256 := by
  induction l with
  | nil => simp
  | cons h t ih =>
    intro b hb
    simp only [List.foldr_cons, List.mem_append] at hb
    rcases hb with hb | hb
    · simp [be32, byteOf] at hb
      rcases hb with h | h | h | h <;> omega
    · exact ih b hb

theorem sha256Sum_bytes_lt (msg : Bytes) : ∀ b ∈ sha256Sum msg, b < 256 := by
  unfold sha256Sum
  exact foldr_be32_bytes_lt _

/-! ## Fingerprint derivation plumbing -/

theorem serializeForHash_fpirrel (pk : PublicKey) (f : Bytes) (k : Nat) :
    SerializeForHash { pk with fingerprint := f, keyId := k } = SerializeForHash pk := rfl

theorem setFingerprintAndKeyId_fpirrel (pk : PublicKey) (f : Bytes) (k : Nat) :
    setFingerprintAndKeyId { pk with fingerprint := f, keyId := k } =
      setFingerprintAndKeyId pk := by
  unfold setFingerprintAndKeyId
  have hs : SerializeForHash { pk with fingerprint := f, keyId := k } =
      SerializeForHash pk := rfl
  by_cases h : pk.version = 5
  · rw [if_pos (show ({ pk with fingerprint := f, keyId := k } : PublicKey).version = 5
        from h), if_pos h, hs]
  · rw [if_neg (show ¬ ({ pk with fingerprint := f, keyId := k } : PublicKey).version = 5
        from h), if_neg h, hs]

/-- The hash preimage depends only on the wire fields: version,
creation time, algorithm and the codec fields. -/
theorem serializeForHash_congr (pk pk' : PublicKey)
    (hv : pk'.version = pk.version) (ht : pk'.creationTime = pk.creationTime)
    (ha : pk'.pubKeyAlgo = pk.pubKeyAlgo) (hn : pk'.n = pk.n) (he : pk'.e = pk.e)
    (hp : pk'.p = pk.p) (hq : pk'.q = pk.q) (hg : pk'.g = pk.g) (hy : pk'.y = pk.y)
    (ho : pk'.oid = pk.oid) (hk : pk'.kdf = pk.kdf) :
    SerializeForHash pk' = SerializeForHash pk := by
  cases pk
  cases pk'
  dsimp at hv ht ha hn he hp hq hg hy ho hk
  subst hv ht ha hn he hp hq hg hy ho hk
  rfl

theorem setFingerprintAndKeyId_idem (pk : PublicKey) :
    setFingerprintAndKeyId (setFingerprintAndKeyId pk) = setFingerprintAndKeyId pk := by
  by_cases h : pk.version = 5
  · have heq : setFingerprintAndKeyId pk =
        { pk with fingerprint := sha256Sum (SerializeForHash pk),
                  keyId := beToNat ((sha256Sum (SerializeForHash pk)).take 8) } := by
      simp [setFingerprintAndKeyId, h]
    rw [heq, setFingerprintAndKeyId_fpirrel, heq]
  · have heq : setFingerprintAndKeyId pk =
        { pk with fingerprint := sha1Sum (SerializeForHash pk),
                  keyId := beToNat (((sha1Sum (SerializeForHash pk)).drop 12).take 8) } := by
      simp [setFingerprintAndKeyId, h]
    rw [heq, setFingerprintAndKeyId_fpirrel, heq]

theorem parse_ok_fixpoint (s : Bytes) (pk' : PublicKey) (r : Bytes)
    (h : parse s = .ok (pk', r)) : pk' = setFingerprintAndKeyId pk' := by
  unfold parse at h
  rcases s with _ | ⟨b0, s⟩; · exact absurd h (by simp)
  rcases s with _ | ⟨b1, s⟩; · exact absurd h (by simp)
  rcases s with _ | ⟨b2, s⟩; · exact absurd h (by simp)
  rcases s with _ | ⟨b3, s⟩; · exact absurd h (by simp)
  rcases s with _ | ⟨b4, s⟩; · exact absurd h (by simp)
  rcases s with _ | ⟨b5, s⟩; · exact absurd h (by simp)
  dsimp only at h
  split at h
  · split at h
    · exact absurd h (by simp)
    · split at h
      · exact absurd h (by simp)
      · split at h
        · exact absurd h (by simp)
        · rw [Except.ok.injEq, Prod.mk.injEq] at h
          obtain ⟨⟨rfl, -⟩⟩ := h
          exact (setFingerprintAndKeyId_idem _).symm
  · exact absurd h (by simp)

theorem setFingerprintAndKeyId_version (pk : PublicKey) :
    (setFingerprintAndKeyId pk).version = pk.version := by
  unfold setFingerprintAndKeyId
  split <;> rfl

theorem setFingerprintAndKeyId_v4eq (pk : PublicKey) (h5 : ¬ pk.version = 5) :
    setFingerprintAndKeyId pk =
      { pk with
          fingerprint := sha1Sum (SerializeForHash pk),
          keyId := beToNat (((sha1Sum (SerializeForHash pk)).drop 12).take 8) } := by
  unfold setFingerprintAndKeyId
  rw [if_neg h5]

theorem setFingerprintAndKeyId_v5eq (pk : PublicKey) (h5 : pk.version = 5) :
    setFingerprintAndKeyId pk =
      { pk with
          fingerprint := sha256Sum (SerializeForHash pk),
          keyId := beToNat ((sha256Sum (SerializeForHash pk)).take 8) } := by
  unfold setFingerprintAndKeyId
  rw [if_pos h5]

/-- C2: for every key value, the derivation computes: v4 keys get the
20-byte SHA-1 digest of the preimage as fingerprint, with the key id
read from its last 8 bytes (bytes 12-19); v5 keys get the 32-byte
SHA-256 digest, with the key id read from its first 8 bytes; and the
derivation has run on the result of every successful parse, of every
wrapping constructor, and of the version upgrade (each of those values
is a fixed point of the derivation). -/
theorem c2_fingerprint_and_keyid_derivation :
    ∀ pk : PublicKey,
      (pk.version = 4 →
        setFingerprintAndKeyId pk =
          { pk with
              fingerprint := sha1Sum (SerializeForHash pk),
              keyId := beToNat (((sha1Sum (SerializeForHash pk)).drop 12).take 8) } ∧
        (sha1Sum (SerializeForHash pk)).length = 20) ∧
      (pk.version = 5 →
        setFingerprintAndKeyId pk =
          { pk with
              fingerprint := sha256Sum (SerializeForHash pk),
              keyId := beToNat ((sha256Sum (SerializeForHash pk)).take 8) } ∧
        (sha256Sum (SerializeForHash pk)).length = 32) ∧
      (∀ s pk2 r, parse s = .ok (pk2, r) → pk2 = setFingerprintAndKeyId pk2) ∧
      (∀ t a b, NewRSAPublicKey t a b = setFingerprintAndKeyId (NewRSAPublicKey t a b)) ∧
      (∀ t a b c d, NewDSAPublicKey t a b c d =
        setFingerprintAndKeyId (NewDSAPublicKey t a b c d)) ∧
      (∀ t a b c, NewElGamalPublicKey t a b c =
        setFingerprintAndKeyId (NewElGamalPublicKey t a b c)) ∧
      (∀ t ci x y, NewECDSAPublicKey t ci x y =
        setFingerprintAndKeyId (NewECDSAPublicKey t ci x y)) ∧
      (∀ t ci x y kh kc, NewECDHPublicKey t ci x y kh kc =
        setFingerprintAndKeyId (NewECDHPublicKey t ci x y kh kc)) ∧
      (∀ t pub, NewEdDSAPublicKey t pub =
        setFingerprintAndKeyId (NewEdDSAPublicKey t pub)) ∧
      (∀ pk2, UpgradeToV5 pk2 = setFingerprintAndKeyId (UpgradeToV5 pk2) ∧
        (UpgradeToV5 pk2).version = 5) :=
  fun pk =>
    ⟨fun h4 => ⟨setFingerprintAndKeyId_v4eq pk (by omega), sha1Sum_length _⟩,
     fun h5 => ⟨setFingerprintAndKeyId_v5eq pk h5, sha256Sum_length _⟩,
     parse_ok_fixpoint,
     fun t a b => (setFingerprintAndKeyId_idem _).symm,
     fun t a b c d => (setFingerprintAndKeyId_idem _).symm,
     fun t a b c => (setFingerprintAndKeyId_idem _).symm,
     fun t ci x y => (setFingerprintAndKeyId_idem _).symm,
     fun t ci x y kh kc => (setFingerprintAndKeyId_idem _).symm,
     fun t pub => (setFingerprintAndKeyId_idem _).symm,
     fun pk2 => ⟨(setFingerprintAndKeyId_idem _).symm,
       setFingerprintAndKeyId_version { pk2 with version := 5 }⟩⟩

set_option maxRecDepth 100000 in
set_option maxHeartbeats 8000000 in
/-- Witness for C2 at the concrete RSA key and its parse. -/
theorem c2_fingerprint_and_keyid_derivation_witness :
    (pk0raw.version = 4 ∧
      setFingerprintAndKeyId pk0raw =
        { pk0raw with
            fingerprint := sha1Sum (SerializeForHash pk0raw),
            keyId := beToNat (((sha1Sum (SerializeForHash pk0raw)).drop 12).take 8) }) ∧
    (parse (serializeWithoutHeaders pk0) = .ok (pk0, []) ∧
      pk0 = setFingerprintAndKeyId pk0) :=
  ⟨⟨by decide, ((c2_fingerprint_and_keyid_derivation pk0raw).1 (by decide)).1⟩,
   ⟨by decide,
    (c2_fingerprint_and_keyid_derivation pk0raw).2.2.1
      (serializeWithoutHeaders pk0) pk0 [] (by decide)⟩⟩

/-- C9: for every digest state reachable from `Reset` by any sequence
of `Write` calls, after `checkSum` writes the `0x80` padding byte, the
zero fill to 56 mod 64 and the 8-byte bit length, the internal buffer is
fully consumed (`d.nx` is zero), so the fatal `panic("d.nx != 0")` guard
is unreachable. -/
theorem c9_sha1_padding_consumes_buffer :
    ∀ msgs : List Bytes,
      (sha1CheckSumState (msgs.foldl sha1Write sha1Init)).x.length = 0 ∧
      sha1CheckSum (msgs.foldl sha1Write sha1Init) ≠ none := by
  intro msgs
  have hwf := sha1_foldl_wf msgs sha1Init sha1Init_wf
  refine ⟨sha1CheckSumState_x_length _ hwf, ?_⟩
  have hs := sha1CheckSum_isSome _ hwf
  intro hc
  rw [hc] at hs
  simp at hs

set_option maxRecDepth 100000 in
/-- C5 (code bug): evaluated at the concrete RSA key, the derivation
emits the key id and the fingerprint, in lowercase hex, to standard
output — the claim (and spec sections 4.2, 7 and 9) forbids any such
emission. -/
theorem c5_derivation_emits_key_material :
    setFingerprintAndKeyIdOutput pk0raw =
      ["keyid: 43dc677208edb620",
       "fingerprint: cd094f6748364bb676428f3b43dc677208edb620"] ∧
    setFingerprintAndKeyIdOutput pk0raw ≠ [] := by
  constructor <;> decide

/-- C10: `parseEdDSA` resolves the Ed25519 OID and then unconditionally
indexes the first byte of the point MPI: on a zero-length point the
access is out of range (a runtime panic, not a malformed-encoding or
unsupported-feature error); with a non-empty point the out-of-range
access cannot occur, so parsing is total exactly under the precondition
that the point MPI is non-empty. -/
theorem c10_parseEdDSA_empty_point_out_of_bounds :
    (∀ pk : PublicKey,
      parseEdDSA pk [9, 0x2B, 0x06, 0x01, 0x04, 0x01, 0xDA, 0x47, 0x0F, 0x01, 0, 0] =
        .error .outOfBounds) ∧
    (∀ (pk : PublicKey) (s : Bytes) oo s1 pp s2,
      OID.readFrom s = .ok (oo, s1) → MPI.readFrom s1 = .ok (pp, s2) →
      pp.bytes ≠ [] → parseEdDSA pk s ≠ .error .outOfBounds) := by
  constructor
  · intro pk
    rfl
  · intro pk s oo s1 pp s2 h1 h2 hne hcontra
    unfold parseEdDSA at hcontra
    rw [h1] at hcontra
    dsimp only at hcontra
    cases hfind : findByOid oo with
    | none => rw [hfind] at hcontra; exact absurd hcontra (by simp)
    | some ci =>
      rw [hfind] at hcontra
      dsimp only at hcontra
      by_cases hsig : ci.sigAlgorithm ≠ .forEdDSA
      · rw [if_pos hsig] at hcontra
        exact absurd hcontra (by simp)
      · rw [if_neg hsig, h2] at hcontra
        dsimp only at hcontra
        cases hb : pp.bytes with
        | nil => exact hne hb
        | cons f restBytes =>
          rw [hb] at hcontra
          dsimp only at hcontra
          by_cases hf : f = 0x04
          · rw [if_pos hf] at hcontra
            exact absurd hcontra (by simp)
          · rw [if_neg hf] at hcontra
            by_cases hf2 : f = 0x40
            · rw [if_pos hf2] at hcontra
              exact absurd hcontra (by simp)
            · rw [if_neg hf2] at hcontra
              exact absurd hcontra (by simp)

/-- Witness for C10 at a concrete stream with a non-empty point. -/
theorem c10_parseEdDSA_empty_point_out_of_bounds_witness :
    OID.readFrom [9, 0x2B, 0x06, 0x01, 0x04, 0x01, 0xDA, 0x47, 0x0F, 0x01, 0, 8, 0x40] =
      .ok (⟨[0x2B, 0x06, 0x01, 0x04, 0x01, 0xDA, 0x47, 0x0F, 0x01]⟩, [0, 8, 0x40]) ∧
    MPI.readFrom [0, 8, 0x40] = .ok (⟨8, [0x40]⟩, []) ∧
    parseEdDSA { version := 4, creationTime := 0, pubKeyAlgo := .eddsa }
        [9, 0x2B, 0x06, 0x01, 0x04, 0x01, 0xDA, 0x47, 0x0F, 0x01, 0, 8, 0x40] ≠
      .error .outOfBounds :=
  ⟨by decide, by decide,
   c10_parseEdDSA_empty_point_out_of_bounds.2
     { version := 4, creationTime := 0, pubKeyAlgo := .eddsa }
     [9, 0x2B, 0x06, 0x01, 0x04, 0x01, 0xDA, 0x47, 0x0F, 0x01, 0, 8, 0x40]
     ⟨[0x2B, 0x06, 0x01, 0x04, 0x01, 0xDA, 0x47, 0x0F, 0x01]⟩ [0, 8, 0x40]
     ⟨8, [0x40]⟩ [] (by decide) (by decide) (by decide)⟩

/-- C8: once the two RSA MPIs have been read, parsing fails — with the
unsupported-feature outcome — exactly when the exponent encoding
exceeds 3 bytes; an exponent of at most 3 bytes always parses, the
machine-integer exponent accumulating its bytes by left shifts. -/
theorem c8_rsa_exponent_three_bytes :
    ∀ (pk : PublicKey) (s : Bytes) nn s1 ee s2,
      MPI.readFrom s = .ok (nn, s1) → MPI.readFrom s1 = .ok (ee, s2) →
      (3 < ee.bytes.length →
        parseRSA pk s = .error (.unsupported ("large public exponent"))) ∧
      (ee.bytes.length ≤ 3 →
        parseRSA pk s = .ok ({ pk with
          n := nn, e := ee,
          publicKey := .rsaKey (beToNat nn.bytes)
            (ee.bytes.foldl (fun a b => (a <<< 8) ||| b) 0) }, s2)) ∧
      ((∃ msg, parseRSA pk s = .error (.unsupported msg)) ↔ 3 < ee.bytes.length) := by
  intro pk s nn s1 ee s2 h1 h2
  unfold parseRSA
  rw [h1]
  dsimp only
  rw [h2]
  dsimp only
  by_cases hlen : 3 < ee.bytes.length
  · rw [if_pos hlen]
    exact ⟨fun _ => rfl, fun hle => absurd hlen (by omega), by simp [hlen]⟩
  · rw [if_neg hlen]
    refine ⟨fun hgt => absurd hgt hlen, fun _ => rfl, ?_⟩
    simp only [hlen, iff_false]
    rintro ⟨msg, hmsg⟩
    exact absurd hmsg (by simp)

/-- Witness for C8 at two concrete streams, one with a 1-byte and one
with a 4-byte exponent. -/
theorem c8_rsa_exponent_three_bytes_witness :
    parseRSA { version := 4, creationTime := 0, pubKeyAlgo := .rsa }
        [0, 7, 0x65, 0, 2, 3] =
      .ok ({ version := 4, creationTime := 0, pubKeyAlgo := .rsa,
             n := ⟨7, [0x65]⟩, e := ⟨2, [3]⟩, publicKey := .rsaKey 0x65 3 }, []) ∧
    parseRSA { version := 4, creationTime := 0, pubKeyAlgo := .rsa }
        [0, 7, 0x65, 0, 25, 1, 0, 0, 1] =
      .error (.unsupported ("large public exponent")) :=
  ⟨by
    have h := (c8_rsa_exponent_three_bytes
      { version := 4, creationTime := 0, pubKeyAlgo := .rsa }
      [0, 7, 0x65, 0, 2, 3] ⟨7, [0x65]⟩ [0, 2, 3] ⟨2, [3]⟩ []
      (by decide) (by decide)).2.1 (by decide)
    exact h.trans (by decide),
   (c8_rsa_exponent_three_bytes
      { version := 4, creationTime := 0, pubKeyAlgo := .rsa }
      [0, 7, 0x65, 0, 25, 1, 0, 0, 1] ⟨7, [0x65]⟩ [0, 25, 1, 0, 0, 1]
      ⟨25, [1, 0, 0, 1]⟩ [] (by decide) (by decide)).1 (by decide)⟩

theorem be64_beToNat (l : Bytes) (hl : l.length = 8) (hb : ∀ b ∈ l, b < 256) :
    be64 (beToNat l) = l := by
  rcases l with _ | ⟨a, _ | ⟨b, _ | ⟨c, _ | ⟨d, _ | ⟨e, _ | ⟨f, _ | ⟨g, _ | ⟨h, _ | ⟨i, t⟩⟩⟩⟩⟩⟩⟩⟩⟩ <;>
    simp only [List.length_nil, List.length_cons] at hl <;> try omega
  have ha : a < 256 := hb a (by simp)
  have hbb : b < 256 := hb b (by simp)
  have hc : c < 256 := hb c (by simp)
  have hd : d < 256 := hb d (by simp)
  have he : e < 256 := hb e (by simp)
  have hf : f < 256 := hb f (by simp)
  have hg : g < 256 := hb g (by simp)
  have hh : h < 256 := hb h (by simp)
  simp only [be64, beToNat, List.foldl_cons, List.foldl_nil, byteOf,
    Nat.shiftRight_eq_div_pow, List.cons.injEq, and_true]
  norm_num
  omega

set_option maxRecDepth 100000 in
set_option maxHeartbeats 4000000 in
/-- C6 counterexample: a well-formed v5 key (fingerprint and key id
consistently derived) on which `KeyIdString` does not return the key id
in uppercase hex — it returns fingerprint bytes 12-19, while the v5 key
id is fingerprint bytes 0-7. -/
theorem c6_keyid_formatting_counterexample :
    pk5.version = 5 ∧ pk5 = setFingerprintAndKeyId pk5 ∧
    pk5.keyId = beToNat (pk5.fingerprint.take 8) ∧
    KeyIdString pk5 ≠ hexUpperBytes (be64 pk5.keyId) ∧
    KeyIdShortString pk5 ≠ hexUpperBytes ((be64 pk5.keyId).drop 4) := by
  refine ⟨by decide, by decide, by decide, by decide, by decide⟩

set_option maxRecDepth 100000 in
/-- C6 amended: `KeyIdString` returns fingerprint bytes 12-19 in
uppercase hex and `KeyIdShortString` bytes 16-19; for a (consistently
derived) v4 key these are exactly the 8-byte key id, respectively its
last 4 bytes, in uppercase hex; for a v5 key they are unrelated to the
key id (which is fingerprint bytes 0-7). -/
theorem c6_keyid_formatting_amended :
    ∀ pk : PublicKey,
      KeyIdString pk = hexUpperBytes ((pk.fingerprint.drop 12).take 8) ∧
      KeyIdShortString pk = hexUpperBytes ((pk.fingerprint.drop 16).take 4) ∧
      (¬ pk.version = 5 → pk = setFingerprintAndKeyId pk →
        KeyIdString pk = hexUpperBytes (be64 pk.keyId) ∧
        KeyIdShortString pk = hexUpperBytes ((be64 pk.keyId).drop 4)) := by
  intro pk
  refine ⟨rfl, rfl, ?_⟩
  intro h5 hcons
  have heq : pk = { pk with
      fingerprint := sha1Sum (SerializeForHash pk),
      keyId := beToNat (((sha1Sum (SerializeForHash pk)).drop 12).take 8) } := by
    conv_lhs => rw [hcons]
    rw [setFingerprintAndKeyId_v4eq pk h5]
  have hfp : pk.fingerprint = sha1Sum (SerializeForHash pk) := by
    conv_lhs => rw [heq]
  have hkid : pk.keyId = beToNat (((sha1Sum (SerializeForHash pk)).drop 12).take 8) := by
    conv_lhs => rw [heq]
  have hlen : (((sha1Sum (SerializeForHash pk)).drop 12).take 8).length = 8 := by
    simp [sha1Sum_length]
  have hlt : ∀ x ∈ ((sha1Sum (SerializeForHash pk)).drop 12).take 8, x < 256 := by
    intro x hx
    exact sha1Sum_bytes_lt _ x (List.mem_of_mem_drop (List.mem_of_mem_take hx))
  have hbe : be64 pk.keyId = ((sha1Sum (SerializeForHash pk)).drop 12).take 8 := by
    rw [hkid]
    exact be64_beToNat _ hlen hlt
  constructor
  · rw [KeyIdString, hbe, hfp]
  · rw [KeyIdShortString, hbe, hfp]
    have hdt : (((sha1Sum (SerializeForHash pk)).drop 12).take 8).drop 4 =
        ((sha1Sum (SerializeForHash pk)).drop 16).take 4 := by
      rw [List.drop_take, List.drop_drop]
    rw [hdt]

set_option maxRecDepth 100000 in
set_option maxHeartbeats 4000000 in
/-- Witness for the C6 amendment at the concrete v4 key. -/
theorem c6_keyid_formatting_amended_witness :
    KeyIdString pk0 = hexUpperBytes ((pk0.fingerprint.drop 12).take 8) ∧
    KeyIdString pk0 = hexUpperBytes (be64 pk0.keyId) ∧
    KeyIdShortString pk0 = hexUpperBytes ((be64 pk0.keyId).drop 4) :=
  ⟨(c6_keyid_formatting_amended pk0).1,
   ((c6_keyid_formatting_amended pk0).2.2 (by decide) (by decide)).1,
   ((c6_keyid_formatting_amended pk0).2.2 (by decide) (by decide)).2⟩

set_option maxRecDepth 100000 in
set_option maxHeartbeats 4000000 in
/-- C7 counterexample: a version-5 signature of subkey-binding type
`0x18` (a binding type, with non-empty metadata).  The claim predicts
the metadata is appended before hashing; in fact the suffix is fed
unmodified: the verifier accepts the hash tag computed over the
unmodified suffix, and the tag it would compute under the claim (with
the metadata appended) differs. -/
theorem c7_metadata_append_counterexample :
    verifyEffectiveSig sig518 ≠
      { sig518 with hashSuffix := sig518.hashSuffix ++ sig518.metadataSuffix } ∧
    verifyEffectiveSig sig518 = sig518 ∧
    VerifySignature acceptAllPrims pk0 .sha1 [] sig518 = .ok () ∧
    (sha1Sum ([] ++ (sig518.hashSuffix ++ sig518.metadataSuffix))).getD 0 0 ≠
      sig518.hashTag0 := by
  refine ⟨by decide, by decide, by decide, by decide⟩

/-- C7 amended: the metadata mutator is applied exactly when the
signature is version 5 of type `0x00` or `0x01` (the document signature
types), not for binding/direct-key types; the (possibly extended)
suffix is what the verifier feeds into the hash context: its 2-byte tag
check compares the signature's stored tag against the digest over the
accumulated bytes followed by the effective suffix. -/
theorem c7_metadata_append_amended :
    (∀ sig : SigFields,
      verifyEffectiveSig sig =
        if sig.version = 5 ∧ (sig.sigType = 0x00 ∨ sig.sigType = 0x01) then
          { sig with hashSuffix := sig.hashSuffix ++ sig.metadataSuffix }
        else sig) ∧
    (∀ (prims : CryptoPrims) (pk : PublicKey) (algo : HashAlgo) (acc : Bytes)
        (sig : SigFields), CanSign pk = true →
      (VerifySignature prims pk algo acc sig =
          .error (.signatureError ("hash tag does not match")) ↔
        ((hashDigest prims algo (acc ++ (verifyEffectiveSig sig).hashSuffix)).getD 0 0 ≠
            sig.hashTag0 ∨
         (hashDigest prims algo (acc ++ (verifyEffectiveSig sig).hashSuffix)).getD 1 0 ≠
            sig.hashTag1))) := by
  constructor
  · intro sig
    rfl
  · intro prims pk algo acc sig hcs
    have htag0 : (verifyEffectiveSig sig).hashTag0 = sig.hashTag0 := by
      unfold verifyEffectiveSig SigFields.addMetadataToHashSuffix
      split <;> rfl
    have htag1 : (verifyEffectiveSig sig).hashTag1 = sig.hashTag1 := by
      unfold verifyEffectiveSig SigFields.addMetadataToHashSuffix
      split <;> rfl
    unfold VerifySignature
    rw [if_neg (by simp [hcs])]
    dsimp only
    rw [htag0, htag1]
    by_cases hmis :
        (hashDigest prims algo (acc ++ (verifyEffectiveSig sig).hashSuffix)).getD 0 0 ≠
          sig.hashTag0 ∨
        (hashDigest prims algo (acc ++ (verifyEffectiveSig sig).hashSuffix)).getD 1 0 ≠
          sig.hashTag1
    · rw [if_pos hmis]
      exact iff_of_true rfl hmis
    · rw [if_neg hmis]
      refine iff_of_false ?_ hmis
      intro hbad
      by_cases halgo : pk.pubKeyAlgo ≠ (verifyEffectiveSig sig).pubKeyAlgo
      · rw [if_pos halgo] at hbad
        exact absurd hbad (by simp)
      · rw [if_neg halgo] at hbad
        cases hA : pk.pubKeyAlgo <;> rw [hA] at hbad <;> (try dsimp only at hbad) <;>
          first
            | exact absurd hbad (by decide)
            | (cases hK : pk.publicKey <;> rw [hK] at hbad <;> (try dsimp only at hbad) <;>
                first
                  | exact absurd hbad (by decide)
                  | (split at hbad <;>
                      first
                        | exact absurd hbad (by decide)
                        | (split at hbad <;> exact absurd hbad (by decide))))

set_option maxRecDepth 100000 in
/-- Witness for the C7 amendment at the concrete key and signature. -/
theorem c7_metadata_append_amended_witness :
    CanSign pk0 = true ∧
    (VerifySignature acceptAllPrims pk0 .sha1 [] sig518 =
        .error (.signatureError ("hash tag does not match")) ↔
      ((hashDigest acceptAllPrims .sha1
          ([] ++ (verifyEffectiveSig sig518).hashSuffix)).getD 0 0 ≠ sig518.hashTag0 ∨
       (hashDigest acceptAllPrims .sha1
          ([] ++ (verifyEffectiveSig sig518).hashSuffix)).getD 1 0 ≠ sig518.hashTag1)) :=
  ⟨by decide, c7_metadata_append_amended.2 acceptAllPrims pk0 .sha1 [] sig518 (by decide)⟩

/-! ## C1: the hash-preimage layout -/

theorem encodedLength_eq_length_encodedBytes_mpi (m : MPI) :
    m.encodedLength = m.encodedBytes.length := by
  simp [MPI.encodedLength, MPI.encodedBytes]
  omega

theorem encodedLength_eq_length_encodedBytes_oid (o : OID) :
    o.encodedLength = o.encodedBytes.length := by
  simp [OID.encodedLength, OID.encodedBytes]
  omega

/-- The serializer's algorithm-specific byte count is the byte length of
the encoded algorithm-specific fields. -/
theorem algorithmSpecificByteCount_eq (pk : PublicKey) :
    algorithmSpecificByteCount pk = (specAlgoFields pk).length := by
  cases hA : pk.pubKeyAlgo <;>
    simp [algorithmSpecificByteCount, specAlgoFields, hA,
      encodedLength_eq_length_encodedBytes_mpi,
      encodedLength_eq_length_encodedBytes_oid] <;>
    omega

theorem be32_u32 (t : Nat) : be32 (u32 t) = be32 t := by
  simp only [be32, u32, byteOf, Nat.shiftRight_eq_div_pow, List.cons.injEq, and_true]
  norm_num
  omega

theorem byteOf_algo_id (a : PublicKeyAlgorithm) : byteOf a.id = a.id := by
  cases a <;> rfl

/-- The serializer's body agrees with the spec body for representable
versions. -/
theorem serializeWithoutHeaders_eq_specBody (pk : PublicKey)
    (hv : pk.version = 4 ∨ pk.version = 5) :
    serializeWithoutHeaders pk = specBody pk := by
  have hvb : byteOf pk.version = pk.version := by
    rcases hv with h | h <;> rw [h] <;> rfl
  unfold serializeWithoutHeaders specBody
  rw [hvb, be32_u32, byteOf_algo_id, algorithmSpecificByteCount_eq]
  cases hA : pk.pubKeyAlgo <;> simp [specAlgoFields, hA]

/-- C1: for every key value of version 4 or 5 (whose field lengths fit
the framing counters), the hash preimage written by `SerializeForHash`
is exactly the framing followed by the body: the body is the version
byte, the 4-byte big-endian creation time, the algorithm tag byte, for
v5 the 4-byte big-endian algorithm-specific octet count, then the
algorithm-specific fields in declared order with their own MPI/OID
length prefixes; and with `L` the byte length of the algorithm-specific
fields only, the v4 framing is `0x99` with the 2-byte big-endian value
`L+6` and the v5 framing is `0x9A` with the 4-byte big-endian value
`L+10`. -/
theorem c1_hash_preimage_layout :
    ∀ pk : PublicKey, (pk.version = 4 ∨ pk.version = 5) →
      (pk.version = 4 → (specAlgoFields pk).length + 6 < 65536) →
      (pk.version = 5 → (specAlgoFields pk).length + 10 < 4294967296) →
      SerializeForHash pk = specFraming pk ++ specBody pk := by
  intro pk hv hfit4 hfit5
  unfold SerializeForHash SerializeSignatureHead specFraming
  rw [serializeWithoutHeaders_eq_specBody pk hv, algorithmSpecificByteCount_eq]
  rcases hv with h4 | h5
  · have h5f : ¬ pk.version = 5 := by omega
    rw [if_neg h5f, if_neg h5f]
    have hfit := hfit4 h4
    simp only [be16, byteOf, Nat.shiftRight_eq_div_pow, List.cons_append,
      List.nil_append, List.cons.injEq, and_true]
    norm_num
    omega
  · rw [if_pos h5, if_pos h5]
    have hfit := hfit5 h5
    simp only [be32, byteOf, Nat.shiftRight_eq_div_pow, List.cons_append,
      List.nil_append, List.cons.injEq, and_true]
    norm_num
    omega

set_option maxRecDepth 100000 in
set_option maxHeartbeats 4000000 in
/-- Witness for C1 at the concrete v4 and v5 keys. -/
theorem c1_hash_preimage_layout_witness :
    ((pk0.version = 4 ∨ pk0.version = 5) ∧
      SerializeForHash pk0 = specFraming pk0 ++ specBody pk0) ∧
    ((pk5.version = 4 ∨ pk5.version = 5) ∧
      SerializeForHash pk5 = specFraming pk5 ++ specBody pk5) :=
  ⟨⟨by decide,
    c1_hash_preimage_layout pk0 (by decide) (fun _ => by decide) (fun h => by decide)⟩,
   ⟨by decide,
    c1_hash_preimage_layout pk5 (by decide) (fun h => by decide) (fun _ => by decide)⟩⟩

/-- C4: once the outer binding signature has verified, a signature that
declares signing capability with no embedded signature is rejected with
the structural outcome (a constructor distinct from the
verification-failure outcome); when an embedded signature is present,
the binding succeeds exactly when the embedded signature itself
verifies under the subkey's (`signed`'s) key over the same
key-signature hash construction (signing key's preimage then signed
key's preimage); and without signing capability the binding succeeds
outright. -/
theorem c4_subkey_cross_signature :
    ∀ (prims : CryptoPrims) (pk signed : PublicKey) (sig : Signature) (acc : Bytes),
      keySignatureHash pk signed sig.fields.hash = .ok acc →
      VerifySignature prims pk sig.fields.hash acc sig.fields = .ok () →
      ((sig.fields.flagSign = true → sig.embeddedSignature = none →
          VerifyKeySignature prims pk signed sig =
            .error (.structural ("signing subkey is missing cross-signature"))) ∧
       (∀ m m2, PgpError.structural m ≠ PgpError.signatureError m2) ∧
       (∀ esig, sig.embeddedSignature = some esig → sig.fields.flagSign = true →
          ∀ acc2, keySignatureHash pk signed esig.fields.hash = .ok acc2 →
            (VerifyKeySignature prims pk signed sig = .ok () ↔
              VerifySignature prims signed esig.fields.hash acc2 esig.fields = .ok ())) ∧
       (sig.fields.flagSign = false → VerifyKeySignature prims pk signed sig = .ok ())) := by
  intro prims pk signed sig acc hacc houter
  unfold VerifyKeySignature
  rw [hacc]
  dsimp only
  rw [houter]
  dsimp only
  refine ⟨?_, ?_, ?_, ?_⟩
  · intro hflag hemb
    rw [if_pos hflag, hemb]
  · intro m m2 h
    exact absurd h (by simp)
  · intro esig hemb hflag acc2 hacc2
    rw [if_pos hflag, hemb]
    dsimp only
    rw [hacc2]
    dsimp only
    cases hres : VerifySignature prims signed esig.fields.hash acc2 esig.fields with
    | error err => simp
    | ok u =>
      cases u
      simp
  · intro hflag
    rw [if_neg (by rw [hflag]; exact Bool.false_ne_true)]

set_option maxRecDepth 1000000 in
set_option maxHeartbeats 16000000 in
/-- Witness for C4: with accept-all external primitives and the
concrete key pair, the signing-capable binding without an embedded
signature fails structurally, and the same binding with a valid
embedded cross-signature succeeds. -/
theorem c4_subkey_cross_signature_witness :
    (keySignatureHash pk0 pk0 sigOuter.hash = .ok (SerializeForHash pk0 ++ SerializeForHash pk0) ∧
     VerifySignature acceptAllPrims pk0 sigOuter.hash
        (SerializeForHash pk0 ++ SerializeForHash pk0) sigOuter = .ok ()) ∧
    VerifyKeySignature acceptAllPrims pk0 pk0 (.mk sigOuter none) =
      .error (.structural ("signing subkey is missing cross-signature")) ∧
    VerifyKeySignature acceptAllPrims pk0 pk0
        (.mk sigOuter (some (.mk sigEmbedded none))) = .ok () := by
  refine ⟨⟨by decide, by decide⟩, ?_, ?_⟩
  · exact (c4_subkey_cross_signature acceptAllPrims pk0 pk0 (.mk sigOuter none)
      (SerializeForHash pk0 ++ SerializeForHash pk0) (by decide) (by decide)).1
      (by decide) (by rfl)
  · exact ((c4_subkey_cross_signature acceptAllPrims pk0 pk0
      (.mk sigOuter (some (.mk sigEmbedded none)))
      (SerializeForHash pk0 ++ SerializeForHash pk0) (by decide) (by decide)).2.2.1
      (.mk sigEmbedded none) (by rfl) (by decide)
      (SerializeForHash pk0 ++ SerializeForHash pk0) (by decide)).mpr (by decide)

/-! ## C3: the serialize/parse round trip -/

theorem mpiReadFrom_encodedBytes (m : MPI) (r : Bytes)
    (hbl : m.bitLength < 65536) (hlen : m.bytes.length = (m.bitLength + 7) / 8) :
    MPI.readFrom (m.encodedBytes ++ r) = .ok (m, r) := by
  unfold MPI.readFrom MPI.encodedBytes
  dsimp only [List.cons_append]
  have hb : byteOf (m.bitLength >>> 8) * 256 + byteOf m.bitLength = m.bitLength := by
    simp only [byteOf, Nat.shiftRight_eq_div_pow]
    norm_num
    omega
  rw [hb, ← hlen, if_pos (by simp), List.take_left, List.drop_left]

theorem oidReadFrom_encodedBytes (o : OID) (r : Bytes) (hl : o.bytes.length < 256) :
    OID.readFrom (o.encodedBytes ++ r) = .ok (o, r) := by
  unfold OID.readFrom OID.encodedBytes
  dsimp only [List.cons_append]
  have hb : byteOf o.bytes.length = o.bytes.length := Nat.mod_eq_of_lt hl
  rw [hb, if_pos (by simp), List.take_left, List.drop_left]

theorem lor_shiftLeft_add (a b k : Nat) (hb : b < 2 ^ k) :
    (a <<< k) ||| b = 2 ^ k * a + b := by
  apply Nat.eq_of_testBit_eq
  intro j
  rw [Nat.testBit_lor, Nat.testBit_shiftLeft, Nat.testBit_mul_pow_two_add a hb j]
  by_cases hj : j < k
  · have hng : ¬ j ≥ k := by omega
    simp [hj, hng]
  · have hge : j ≥ k := by omega
    have hlt : b < 2 ^ j := lt_of_lt_of_le hb (Nat.pow_le_pow_right (by norm_num) hge)
    simp [hj, hge, Nat.testBit_lt_two_pow hlt]

theorem be32_recombine (t : Nat) (ht : t < 4294967296) :
    u32 ((byteOf (t >>> 24) <<< 24) |||
      ((byteOf (t >>> 16) <<< 16) ||| ((byteOf (t >>> 8) <<< 8) ||| byteOf t))) = t := by
  have hlt : ∀ x : Nat, byteOf x < 256 := fun x => Nat.mod_lt _ (by norm_num)
  rw [lor_shiftLeft_add (byteOf (t >>> 8)) (byteOf t) 8 (hlt t)]
  rw [lor_shiftLeft_add (byteOf (t >>> 16)) _ 16
    (by have h1 := hlt (t >>> 8); have h2 := hlt t; norm_num; omega)]
  rw [lor_shiftLeft_add (byteOf (t >>> 24)) _ 24
    (by have h1 := hlt (t >>> 8); have h2 := hlt t; have h3 := hlt (t >>> 16)
        norm_num; omega)]
  unfold u32
  simp only [byteOf, Nat.shiftRight_eq_div_pow]
  norm_num
  omega

theorem parseRSA_roundtrip (pk1 : PublicKey) (nn ee : MPI) (r : Bytes)
    (h1 : nn.bitLength < 65536) (h2 : nn.bytes.length = (nn.bitLength + 7) / 8)
    (h3 : ee.bitLength < 65536) (h4 : ee.bytes.length = (ee.bitLength + 7) / 8)
    (h5 : ee.bytes.length ≤ 3) :
    parseRSA pk1 (nn.encodedBytes ++ (ee.encodedBytes ++ r)) =
      .ok ({ pk1 with
              n := nn, e := ee,
              publicKey := .rsaKey (beToNat nn.bytes)
                (ee.bytes.foldl (fun a b => (a <<< 8) ||| b) 0) }, r) := by
  unfold parseRSA
  rw [mpiReadFrom_encodedBytes nn _ h1 h2]
  dsimp only
  rw [mpiReadFrom_encodedBytes ee r h3 h4]
  dsimp only
  rw [if_neg (by omega)]

theorem parseDSA_roundtrip (pk1 : PublicKey) (mp mq mg my : MPI) (r : Bytes)
    (hp1 : mp.bitLength < 65536) (hp2 : mp.bytes.length = (mp.bitLength + 7) / 8)
    (hq1 : mq.bitLength < 65536) (hq2 : mq.bytes.length = (mq.bitLength + 7) / 8)
    (hg1 : mg.bitLength < 65536) (hg2 : mg.bytes.length = (mg.bitLength + 7) / 8)
    (hy1 : my.bitLength < 65536) (hy2 : my.bytes.length = (my.bitLength + 7) / 8) :
    parseDSA pk1 (mp.encodedBytes ++ (mq.encodedBytes ++ (mg.encodedBytes ++
        (my.encodedBytes ++ r)))) =
      .ok ({ pk1 with
              p := mp, q := mq, g := mg, y := my,
              publicKey := .dsaKey (beToNat mp.bytes) (beToNat mq.bytes)
                (beToNat mg.bytes) (beToNat my.bytes) }, r) := by
  unfold parseDSA
  rw [mpiReadFrom_encodedBytes mp _ hp1 hp2]
  dsimp only
  rw [mpiReadFrom_encodedBytes mq _ hq1 hq2]
  dsimp only
  rw [mpiReadFrom_encodedBytes mg _ hg1 hg2]
  dsimp only
  rw [mpiReadFrom_encodedBytes my r hy1 hy2]

theorem parseElGamal_roundtrip (pk1 : PublicKey) (mp mg my : MPI) (r : Bytes)
    (hp1 : mp.bitLength < 65536) (hp2 : mp.bytes.length = (mp.bitLength + 7) / 8)
    (hg1 : mg.bitLength < 65536) (hg2 : mg.bytes.length = (mg.bitLength + 7) / 8)
    (hy1 : my.bitLength < 65536) (hy2 : my.bytes.length = (my.bitLength + 7) / 8) :
    parseElGamal pk1 (mp.encodedBytes ++ (mg.encodedBytes ++ (my.encodedBytes ++ r))) =
      .ok ({ pk1 with
              p := mp, g := mg, y := my,
              publicKey := .elgamalKey (beToNat mp.bytes) (beToNat mg.bytes)
                (beToNat my.bytes) }, r) := by
  unfold parseElGamal
  rw [mpiReadFrom_encodedBytes mp _ hp1 hp2]
  dsimp only
  rw [mpiReadFrom_encodedBytes mg _ hg1 hg2]
  dsimp only
  rw [mpiReadFrom_encodedBytes my r hy1 hy2]

theorem parseECDSA_roundtrip (pk1 : PublicKey) (oo : OID) (pp : MPI) (r : Bytes)
    (ho : oo.bytes.length < 256)
    (hp1 : pp.bitLength < 65536) (hp2 : pp.bytes.length = (pp.bitLength + 7) / 8)
    (ci : CurveInfo) (hf : findByOid oo = some ci)
    (hs : ci.sigAlgorithm = .forECDSA) (x y : Nat)
    (hum : ellipticUnmarshal ci pp.bytes = some (x, y)) :
    parseECDSA pk1 (oo.encodedBytes ++ (pp.encodedBytes ++ r)) =
      .ok ({ pk1 with
              oid := oo, p := pp, publicKey := .ecdsaKey ci.name x y }, r) := by
  unfold parseECDSA
  rw [oidReadFrom_encodedBytes oo _ ho]
  dsimp only
  rw [mpiReadFrom_encodedBytes pp r hp1 hp2]
  dsimp only
  rw [hf]
  dsimp only
  rw [if_neg (by simp [hs]), hum]

theorem parseECDH_roundtrip (pk1 : PublicKey) (oo : OID) (pp : MPI) (kk : OID)
    (r : Bytes) (ho : oo.bytes.length < 256)
    (hp1 : pp.bitLength < 65536) (hp2 : pp.bytes.length = (pp.bitLength + 7) / 8)
    (hk : kk.bytes.length < 256)
    (ci : CurveInfo) (hf : findByOid oo = some ci) (x y : Nat)
    (hxy : (if ci.isCurve25519 then some (beToNat pp.bytes, 0)
            else ellipticUnmarshal ci pp.bytes) = some (x, y))
    (hk3 : ¬ kk.bytes.length < 3) (hk0 : kk.bytes.headD 0 = 0x01)
    (hkh : hashIdKnown (kk.bytes.getD 1 0) = true)
    (hkc : cipherIdKnown (kk.bytes.getD 2 0) = true) :
    parseECDH pk1 (oo.encodedBytes ++ (pp.encodedBytes ++ (kk.encodedBytes ++ r))) =
      .ok ({ pk1 with
              oid := oo, p := pp, kdf := kk,
              publicKey := .ecdhKey ci.name x y (kk.bytes.getD 1 0)
                (kk.bytes.getD 2 0) }, r) := by
  unfold parseECDH
  rw [oidReadFrom_encodedBytes oo _ ho]
  dsimp only
  rw [mpiReadFrom_encodedBytes pp _ hp1 hp2]
  dsimp only
  rw [oidReadFrom_encodedBytes kk r hk]
  dsimp only
  rw [hf]
  dsimp only
  rw [hxy]
  dsimp only
  rw [if_neg hk3, if_neg (by simpa using hk0), if_neg (by simpa using hkh),
    if_neg (by simpa using hkc)]

theorem parseEdDSA_roundtrip (pk1 : PublicKey) (oo : OID) (pp : MPI) (r : Bytes)
    (ho : oo.bytes.length < 256)
    (hp1 : pp.bitLength < 65536) (hp2 : pp.bytes.length = (pp.bitLength + 7) / 8)
    (ci : CurveInfo) (hf : findByOid oo = some ci)
    (hs : ci.sigAlgorithm = .forEdDSA)
    (hne : pp.bytes ≠ []) (hhead : pp.bytes.headD 0 = 0x40) :
    parseEdDSA pk1 (oo.encodedBytes ++ (pp.encodedBytes ++ r)) =
      .ok ({ pk1 with
              oid := oo, p := pp,
              publicKey := .eddsaKey ((pp.bytes.drop 1 ++
                List.replicate 32 0).take 32) }, r) := by
  unfold parseEdDSA
  rw [oidReadFrom_encodedBytes oo _ ho]
  dsimp only
  rw [hf]
  dsimp only
  rw [if_neg (by simp [hs])]
  rw [mpiReadFrom_encodedBytes pp r hp1 hp2]
  dsimp only
  cases hc : pp.bytes with
  | nil => exact absurd hc hne
  | cons f tl =>
    rw [hc] at hhead
    simp only [List.headD_cons] at hhead
    subst hhead
    dsimp only
    rw [if_neg (by norm_num), if_pos rfl]
    simp

theorem ofByte_id (a : PublicKeyAlgorithm) : PublicKeyAlgorithm.ofByte a.id = some a := by
  cases a <;> rfl

theorem parse_v4_header (t tag : Nat) (rest : Bytes) (ht : t < 4294967296)
    (algo : PublicKeyAlgorithm) (htag : PublicKeyAlgorithm.ofByte tag = some algo) :
    parse (4 :: byteOf (t >>> 24) :: byteOf (t >>> 16) :: byteOf (t >>> 8) :: byteOf t ::
        tag :: rest) =
      match parseAlgoFields { version := 4, creationTime := t, pubKeyAlgo := algo } rest with
      | .error err => .error err
      | .ok (pk1, rest3) => .ok (setFingerprintAndKeyId pk1, rest3) := by
  unfold parse
  dsimp only
  rw [if_pos (show (4:Nat) = 4 ∨ (4:Nat) = 5 from Or.inl rfl), if_neg (by norm_num)]
  dsimp only
  rw [be32_recombine t ht, htag]
  unfold parseAlgoFields
  cases algo <;> rfl

theorem parse_v5_header (t c1 c2 c3 c4 tag : Nat) (rest : Bytes) (ht : t < 4294967296)
    (algo : PublicKeyAlgorithm) (htag : PublicKeyAlgorithm.ofByte tag = some algo) :
    parse (5 :: byteOf (t >>> 24) :: byteOf (t >>> 16) :: byteOf (t >>> 8) :: byteOf t ::
        tag :: c1 :: c2 :: c3 :: c4 :: rest) =
      match parseAlgoFields { version := 5, creationTime := t, pubKeyAlgo := algo } rest with
      | .error err => .error err
      | .ok (pk1, rest3) => .ok (setFingerprintAndKeyId pk1, rest3) := by
  unfold parse
  dsimp only
  rw [if_pos (show (5:Nat) = 4 ∨ (5:Nat) = 5 from Or.inr rfl), if_pos rfl,
    if_pos (by simp)]
  dsimp only
  rw [be32_recombine t ht, htag]
  simp only [List.drop_succ_cons, List.drop_zero]
  unfold parseAlgoFields
  cases algo <;> rfl

set_option maxHeartbeats 1600000 in
/-- Once the parsed value agrees with the original on every wire field,
so does its derived form, fingerprint and key id included. -/
theorem roundtrip_finish (pk pk1 : PublicKey)
    (hcons : pk = setFingerprintAndKeyId pk)
    (hv : pk1.version = pk.version) (ht : pk1.creationTime = pk.creationTime)
    (ha : pk1.pubKeyAlgo = pk.pubKeyAlgo) (hn : pk1.n = pk.n) (he : pk1.e = pk.e)
    (hp : pk1.p = pk.p) (hq : pk1.q = pk.q) (hg : pk1.g = pk.g) (hy : pk1.y = pk.y)
    (ho : pk1.oid = pk.oid) (hk : pk1.kdf = pk.kdf) :
    (setFingerprintAndKeyId pk1).version = pk.version ∧
    (setFingerprintAndKeyId pk1).creationTime = pk.creationTime ∧
    (setFingerprintAndKeyId pk1).pubKeyAlgo = pk.pubKeyAlgo ∧
    (setFingerprintAndKeyId pk1).n = pk.n ∧
    (setFingerprintAndKeyId pk1).e = pk.e ∧
    (setFingerprintAndKeyId pk1).p = pk.p ∧
    (setFingerprintAndKeyId pk1).q = pk.q ∧
    (setFingerprintAndKeyId pk1).g = pk.g ∧
    (setFingerprintAndKeyId pk1).y = pk.y ∧
    (setFingerprintAndKeyId pk1).oid = pk.oid ∧
    (setFingerprintAndKeyId pk1).kdf = pk.kdf ∧
    (setFingerprintAndKeyId pk1).fingerprint = pk.fingerprint ∧
    (setFingerprintAndKeyId pk1).keyId = pk.keyId := by
  have heq := serializeForHash_congr pk pk1 hv ht ha hn he hp hq hg hy ho hk
  by_cases h5 : pk.version = 5
  · have h5b : pk1.version = 5 := by rw [hv]; exact h5
    have hfp : pk.fingerprint = sha256Sum (SerializeForHash pk) := by
      conv_lhs => rw [hcons]
      rw [setFingerprintAndKeyId_v5eq pk h5]
    have hkid : pk.keyId = beToNat ((sha256Sum (SerializeForHash pk)).take 8) := by
      conv_lhs => rw [hcons]
      rw [setFingerprintAndKeyId_v5eq pk h5]
    rw [setFingerprintAndKeyId_v5eq pk1 h5b]
    dsimp only
    refine ⟨hv, ht, ha, hn, he, hp, hq, hg, hy, ho, hk, ?_, ?_⟩
    · rw [heq]; exact hfp.symm
    · rw [heq]; exact hkid.symm
  · have h5b : ¬ pk1.version = 5 := by rw [hv]; exact h5
    have hfp : pk.fingerprint = sha1Sum (SerializeForHash pk) := by
      conv_lhs => rw [hcons]
      rw [setFingerprintAndKeyId_v4eq pk h5]
    have hkid : pk.keyId = beToNat (((sha1Sum (SerializeForHash pk)).drop 12).take 8) := by
      conv_lhs => rw [hcons]
      rw [setFingerprintAndKeyId_v4eq pk h5]
    rw [setFingerprintAndKeyId_v4eq pk1 h5b]
    dsimp only
    refine ⟨hv, ht, ha, hn, he, hp, hq, hg, hy, ho, hk, ?_, ?_⟩
    · rw [heq]; exact hfp.symm
    · rw [heq]; exact hkid.symm

/-- The body length is the 6 fixed bytes, the v5 octet-count field, and
the algorithm-specific fields. -/
theorem serializeWithoutHeaders_length (pk : PublicKey) :
    (serializeWithoutHeaders pk).length =
      6 + algorithmSpecificByteCount pk + (if pk.version = 5 then 4 else 0) := by
  unfold serializeWithoutHeaders
  rw [algorithmSpecificByteCount_eq]
  unfold specAlgoFields
  cases hA : pk.pubKeyAlgo <;>
    (simp only [List.length_cons, List.length_append, be32, List.length_nil]
     split <;> simp <;> omega)

/-- Feeding the parser the encoded algorithm-specific fields of a sound
key reproduces the key fields on top of the header-initialized value. -/
theorem parseFields_roundtrip (pk : PublicKey) (v t : Nat)
    (hap : algoParamsOk pk = true) (hdef : unusedFieldsDefault pk = true) :
    ∃ pk1, parseAlgoFields
        { version := v, creationTime := t, pubKeyAlgo := pk.pubKeyAlgo }
        (specAlgoFields pk) = .ok (pk1, []) ∧
      pk1.version = v ∧ pk1.creationTime = t ∧ pk1.pubKeyAlgo = pk.pubKeyAlgo ∧
      pk1.n = pk.n ∧ pk1.e = pk.e ∧ pk1.p = pk.p ∧ pk1.q = pk.q ∧
      pk1.g = pk.g ∧ pk1.y = pk.y ∧ pk1.oid = pk.oid ∧ pk1.kdf = pk.kdf := by
  unfold algoParamsOk at hap
  unfold unusedFieldsDefault at hdef
  unfold parseAlgoFields specAlgoFields
  cases hA : pk.pubKeyAlgo <;> rw [hA] at hap hdef <;> dsimp only at hap hdef ⊢
  case rsa | rsaEncryptOnly | rsaSignOnly =>
    simp only [mpiWfB, Bool.and_eq_true, decide_eq_true_eq, beq_iff_eq] at hap hdef
    obtain ⟨⟨⟨hn1, hn2⟩, he1, he2⟩, he3⟩ := hap
    obtain ⟨⟨⟨⟨⟨hdp, hdq⟩, hdg⟩, hdy⟩, hdo⟩, hdk⟩ := hdef
    rw [← List.append_nil pk.e.encodedBytes]
    refine ⟨_, parseRSA_roundtrip _ pk.n pk.e [] hn1 hn2 he1 he2 he3, ?_⟩
    dsimp only
    exact ⟨rfl, rfl, rfl, rfl, rfl, hdp.symm, hdq.symm, hdg.symm, hdy.symm,
      hdo.symm, hdk.symm⟩
  case dsa =>
    simp only [mpiWfB, Bool.and_eq_true, decide_eq_true_eq, beq_iff_eq] at hap hdef
    obtain ⟨⟨⟨⟨hp1, hp2⟩, hq1, hq2⟩, hg1, hg2⟩, hy1, hy2⟩ := hap
    obtain ⟨⟨⟨hdn, hde⟩, hdo⟩, hdk⟩ := hdef
    rw [← List.append_nil pk.y.encodedBytes]
    simp only [List.append_assoc]
    refine ⟨_, parseDSA_roundtrip _ pk.p pk.q pk.g pk.y []
      hp1 hp2 hq1 hq2 hg1 hg2 hy1 hy2, ?_⟩
    dsimp only
    exact ⟨rfl, rfl, rfl, hdn.symm, hde.symm, rfl, rfl, rfl, rfl, hdo.symm, hdk.symm⟩
  case elgamal =>
    simp only [mpiWfB, Bool.and_eq_true, decide_eq_true_eq, beq_iff_eq] at hap hdef
    obtain ⟨⟨⟨hp1, hp2⟩, hg1, hg2⟩, hy1, hy2⟩ := hap
    obtain ⟨⟨⟨⟨hdn, hde⟩, hdq⟩, hdo⟩, hdk⟩ := hdef
    rw [← List.append_nil pk.y.encodedBytes]
    simp only [List.append_assoc]
    refine ⟨_, parseElGamal_roundtrip _ pk.p pk.g pk.y [] hp1 hp2 hg1 hg2 hy1 hy2, ?_⟩
    dsimp only
    exact ⟨rfl, rfl, rfl, hdn.symm, hde.symm, rfl, hdq.symm, rfl, rfl,
      hdo.symm, hdk.symm⟩
  case ecdsa =>
    simp only [mpiWfB, oidWfB, Bool.and_eq_true, decide_eq_true_eq, beq_iff_eq]
      at hap hdef
    obtain ⟨⟨ho1, hp1, hp2⟩, hm⟩ := hap
    obtain ⟨⟨⟨⟨⟨hdn, hde⟩, hdq⟩, hdg⟩, hdy⟩, hdk⟩ := hdef
    cases hci : findByOid pk.oid with
    | none => rw [hci] at hm; simp at hm
    | some ci =>
      rw [hci] at hm
      dsimp only at hm
      simp only [Bool.and_eq_true, beq_iff_eq, Option.isSome_iff_exists] at hm
      obtain ⟨hs, ⟨x, y⟩, hum⟩ := hm
      rw [← List.append_nil pk.p.encodedBytes]
      refine ⟨_, parseECDSA_roundtrip _ pk.oid pk.p [] ho1 hp1 hp2 ci hci hs x y hum, ?_⟩
      dsimp only
      exact ⟨rfl, rfl, rfl, hdn.symm, hde.symm, rfl, hdq.symm, hdg.symm, hdy.symm,
        rfl, hdk.symm⟩
  case ecdh =>
    simp only [mpiWfB, oidWfB, Bool.and_eq_true, decide_eq_true_eq, beq_iff_eq]
      at hap hdef
    obtain ⟨⟨⟨⟨⟨⟨⟨ho1, hp1, hp2⟩, hk1⟩, hm⟩, hk3⟩, hk0⟩, hkh⟩, hkc⟩ := hap
    obtain ⟨⟨⟨⟨hdn, hde⟩, hdq⟩, hdg⟩, hdy⟩ := hdef
    cases hci : findByOid pk.oid with
    | none => rw [hci] at hm; simp at hm
    | some ci =>
      rw [hci] at hm
      dsimp only at hm
      have hxy : ∃ x y, (if ci.isCurve25519 then some (beToNat pk.p.bytes, 0)
          else ellipticUnmarshal ci pk.p.bytes) = some (x, y) := by
        cases hc25 : ci.isCurve25519 with
        | true => exact ⟨beToNat pk.p.bytes, 0, by rw [if_pos rfl]⟩
        | false =>
          rw [hc25] at hm
          simp only [Bool.false_or, Option.isSome_iff_exists] at hm
          obtain ⟨⟨x, y⟩, hum⟩ := hm
          exact ⟨x, y, by rw [if_neg (by simp), hum]⟩
      obtain ⟨x, y, hxy⟩ := hxy
      rw [← List.append_nil pk.kdf.encodedBytes]
      simp only [List.append_assoc]
      refine ⟨_, parseECDH_roundtrip _ pk.oid pk.p pk.kdf [] ho1 hp1 hp2 hk1 ci hci
        x y hxy (by omega) hk0 hkh hkc, ?_⟩
      dsimp only
      exact ⟨rfl, rfl, rfl, hdn.symm, hde.symm, rfl, hdq.symm, hdg.symm, hdy.symm,
        rfl, rfl⟩
  case eddsa =>
    simp only [mpiWfB, oidWfB, Bool.and_eq_true, decide_eq_true_eq, beq_iff_eq,
      Bool.not_eq_true] at hap hdef
    obtain ⟨⟨⟨⟨ho1, hp1, hp2⟩, hm⟩, hh40⟩, hne0⟩ := hap
    obtain ⟨⟨⟨⟨⟨hdn, hde⟩, hdq⟩, hdg⟩, hdy⟩, hdk⟩ := hdef
    cases hci : findByOid pk.oid with
    | none => rw [hci] at hm; simp at hm
    | some ci =>
      rw [hci] at hm
      dsimp only at hm
      simp only [beq_iff_eq] at hm
      have hne : pk.p.bytes ≠ [] := by
        intro hc
        rw [hc] at hne0
        simp at hne0
      rw [← List.append_nil pk.p.encodedBytes]
      refine ⟨_, parseEdDSA_roundtrip _ pk.oid pk.p [] ho1 hp1 hp2 ci hci hm hne hh40, ?_⟩
      dsimp only
      exact ⟨rfl, rfl, rfl, hdn.symm, hde.symm, rfl, hdq.symm, hdg.symm, hdy.symm,
        rfl, hdk.symm⟩

set_option maxHeartbeats 1600000 in
/-- C3: for every valid (version, algorithm, parameters) combination,
the serialized packet is the framing header over the body, and parsing
the body back yields a key with identical version, creation time,
algorithm and algorithm parameters, whose fingerprint and key id equal
the original ones. -/
theorem c3_serialize_parse_roundtrip (pk : PublicKey) (hval : ValidKey pk = true) :
    Serialize pk =
      serializeHeader (packetTypeTag pk) (serializeWithoutHeaders pk).length ++
        serializeWithoutHeaders pk ∧
    ∃ pk2, parse (serializeWithoutHeaders pk) = Except.ok (pk2, []) ∧
      pk2.version = pk.version ∧ pk2.creationTime = pk.creationTime ∧
      pk2.pubKeyAlgo = pk.pubKeyAlgo ∧ pk2.n = pk.n ∧ pk2.e = pk.e ∧ pk2.p = pk.p ∧
      pk2.q = pk.q ∧ pk2.g = pk.g ∧ pk2.y = pk.y ∧ pk2.oid = pk.oid ∧
      pk2.kdf = pk.kdf ∧ pk2.fingerprint = pk.fingerprint ∧ pk2.keyId = pk.keyId := by
  unfold ValidKey at hval
  simp only [Bool.and_eq_true, Bool.or_eq_true, beq_iff_eq, decide_eq_true_eq] at hval
  obtain ⟨⟨⟨⟨hv45, ht32⟩, hcons⟩, hap⟩, hdef⟩ := hval
  refine ⟨?_, ?_⟩
  · unfold Serialize
    dsimp only
    rw [serializeWithoutHeaders_length]
  · rcases hv45 with h4 | h5
    · obtain ⟨pk1, hpar, hv1, ht1, hA1, hn1, he1, hp1, hq1, hg1, hy1, ho1, hk1⟩ :=
        parseFields_roundtrip pk 4 pk.creationTime hap hdef
      refine ⟨setFingerprintAndKeyId pk1, ?_, ?_⟩
      · rw [serializeWithoutHeaders_eq_specBody pk (Or.inl h4)]
        unfold specBody
        rw [h4, if_neg (by norm_num)]
        simp only [be32, List.cons_append, List.nil_append]
        rw [parse_v4_header pk.creationTime pk.pubKeyAlgo.id (specAlgoFields pk)
          ht32 pk.pubKeyAlgo (ofByte_id pk.pubKeyAlgo)]
        rw [hpar]
      · exact roundtrip_finish pk pk1 hcons (hv1.trans h4.symm) ht1 hA1 hn1 he1 hp1
          hq1 hg1 hy1 ho1 hk1
    · obtain ⟨pk1, hpar, hv1, ht1, hA1, hn1, he1, hp1, hq1, hg1, hy1, ho1, hk1⟩ :=
        parseFields_roundtrip pk 5 pk.creationTime hap hdef
      refine ⟨setFingerprintAndKeyId pk1, ?_, ?_⟩
      · rw [serializeWithoutHeaders_eq_specBody pk (Or.inr h5)]
        unfold specBody
        rw [h5, if_pos rfl]
        simp only [be32, List.cons_append, List.nil_append]
        rw [parse_v5_header pk.creationTime
          (byteOf ((specAlgoFields pk).length >>> 24))
          (byteOf ((specAlgoFields pk).length >>> 16))
          (byteOf ((specAlgoFields pk).length >>> 8))
          (byteOf (specAlgoFields pk).length) pk.pubKeyAlgo.id (specAlgoFields pk)
          ht32 pk.pubKeyAlgo (ofByte_id pk.pubKeyAlgo)]
        rw [hpar]
      · exact roundtrip_finish pk pk1 hcons (hv1.trans h5.symm) ht1 hA1 hn1 he1 hp1
          hq1 hg1 hy1 ho1 hk1

set_option maxRecDepth 100000 in
set_option maxHeartbeats 16000000 in
/-- Witness: the round-trip law applied to the concrete v4 RSA key. -/
theorem c3_serialize_parse_roundtrip_witness :
    ValidKey pk0 = true ∧
    (Serialize pk0 =
        serializeHeader (packetTypeTag pk0) (serializeWithoutHeaders pk0).length ++
          serializeWithoutHeaders pk0 ∧
      ∃ pk2, parse (serializeWithoutHeaders pk0) = Except.ok (pk2, []) ∧
        pk2.version = pk0.version ∧ pk2.creationTime = pk0.creationTime ∧
        pk2.pubKeyAlgo = pk0.pubKeyAlgo ∧ pk2.n = pk0.n ∧ pk2.e = pk0.e ∧
        pk2.p = pk0.p ∧ pk2.q = pk0.q ∧ pk2.g = pk0.g ∧ pk2.y = pk0.y ∧
        pk2.oid = pk0.oid ∧ pk2.kdf = pk0.kdf ∧
        pk2.fingerprint = pk0.fingerprint ∧ pk2.keyId = pk0.keyId) :=
  ⟨by decide, c3_serialize_parse_roundtrip pk0 (by decide)⟩

end PGP
